import Mathlib

/-!
# Order intake of the dex module (`x/dex/keeper/msgserver/msg_server_place_orders.go`)

A shallow embedding of `validateOrder`, `transferFunds` and `PlaceOrders`.

* Go values that may be nil (`sdk.Dec`, `sdk.Int` wrap a `*big.Int`) carry an `Option Int`.
* The block-scoped working state (deposit ledgers, staging sets) and the persisted
  next-order-id counters are an explicit `State` that every operation threads through.
* A Go `error` return is `Result.error`, a Go panic is `Result.panic`; in both cases the
  state returned is the state as the function left it.
* `uint64` arithmetic is arithmetic on `Nat` modulo `2 ^ 64`.
-/

namespace SeiDex

/-! ## Library types used by the source -/

/-- The library type `sdk.Dec`: a possibly nil big integer holding the value scaled by
`10 ^ 18`. -/
structure Dec where
  i : Option Int
deriving DecidableEq, Repr

/-- Go `Dec.IsNil`: the wrapped pointer is nil. -/
def Dec.IsNil (d : Dec) : Bool :=
  match d.i with
  | none => true
  | some _ => false

/-- Go `Dec.IsNegative`: the sign of the wrapped integer is `-1`. The source only calls it behind
an `IsNil() ||` guard, so the value on a nil decimal is never observed. -/
def Dec.IsNegative (d : Dec) : Bool :=
  match d.i with
  | none => false
  | some v => decide (v < 0)

/-- Number of decimal places of `sdk.Dec`. -/
def Precision : Nat := 18

/-- Go `sdk.NewDec`: the decimal with the integral value `n`. -/
def NewDec (n : Int) : Dec := ⟨some (n * 10 ^ Precision)⟩

/-- The library type `sdk.Int`: a possibly nil big integer. -/
structure SdkInt where
  i : Option Int
deriving DecidableEq, Repr

/-- Go `Int.IsNil`. -/
def SdkInt.IsNil (a : SdkInt) : Bool :=
  match a.i with
  | none => true
  | some _ => false

/-- Go `Int.Sign`: `-1`, `0` or `1`. -/
def SdkInt.Sign (a : SdkInt) : Int :=
  match a.i with
  | none => 0
  | some v => if v < 0 then -1 else if v = 0 then 0 else 1

/-- Largest value of a Go `int64`. -/
def maxInt64 : Int := 2 ^ 63 - 1

/-- Smallest value of a Go `int64`. -/
def minInt64 : Int := -(2 ^ 63)

/-- Go `Int.Int64`: the value as an `int64`; `none` stands for the panic
`Int64() out of bound` raised when the value does not fit. -/
def SdkInt.Int64 (a : SdkInt) : Option Int :=
  match a.i with
  | none => none
  | some v => if minInt64 ≤ v ∧ v ≤ maxInt64 then some v else none

/-- An `sdk.Coin`. -/
structure Coin where
  Denom : String
  Amount : SdkInt
deriving DecidableEq, Repr

/-- Go `Coin.IsNegative`: the amount has sign `-1`. -/
def Coin.IsNegative (c : Coin) : Bool := decide (c.Amount.Sign = -1)

/-- An account address: the bytes decoded from a bech32 string. -/
abbrev AccAddress := List Nat

/-! ## Types of the dex module -/

/-- Modelled from the spec: the order types; the enum `types.OrderType` is declared outside the
source tree. -/
inductive OrderType where
  | LIMIT
  | MARKET
  | FOKMARKET
  | FOKMARKETBYVALUE
  | STOPLOSS
  | STOPLIMIT
deriving DecidableEq, Repr

/-- Modelled from the spec: the direction of an order (`types.PositionDirection`). -/
inductive PositionDirection where
  | LONG
  | SHORT
deriving DecidableEq, Repr

/-- Modelled from the spec: the attributes of `types.Order` listed in the data model. -/
structure Order where
  Id : Nat
  Account : String
  ContractAddr : String
  Price : Dec
  Quantity : Dec
  PriceDenom : String
  AssetDenom : String
  OrderType : OrderType
  PositionDirection : PositionDirection
  Nominal : Dec
  TriggerPrice : Dec
deriving DecidableEq, Repr

/-- The `types.Pair` descriptor; the two tick sizes are pointers and may be nil. -/
structure Pair where
  PriceDenom : String
  AssetDenom : String
  PriceTicksize : Option Dec
  QuantityTicksize : Option Dec
deriving DecidableEq, Repr

/-- A `types.DepositInfoEntry`. -/
structure DepositInfoEntry where
  Creator : String
  Denom : String
  Amount : Dec
deriving DecidableEq, Repr

/-- The message `types.MsgPlaceOrders`. -/
structure MsgPlaceOrders where
  Creator : String
  Orders : List Order
  ContractAddr : String
  Funds : List Coin
deriving Repr

/-- The response `types.MsgPlaceOrdersResponse`. -/
structure MsgPlaceOrdersResponse where
  OrderIds : List Nat
deriving DecidableEq, Repr

/-! ## Errors and results -/

/-- The errors the three functions can return, one constructor per `return` site. -/
inductive Err where
  /-- Message `at least one order needs to be placed` -/
  | emptyBatch
  /-- Message `invalid order quantity: %s` -/
  | invalidQuantity (q : Dec)
  /-- Message `invalid order price: %s` -/
  | invalidPrice (p : Dec)
  /-- Message `invalid order, asset denom is empty` -/
  | assetDenomEmpty
  /-- Message `invalid order, price denom is empty` -/
  | priceDenomEmpty
  /-- Message `invalid nominal value for market by value order: %s` -/
  | invalidNominal (n : Dec)
  /-- Message `invalid trigger price for stop loss/limit order: %s` -/
  | invalidTriggerPrice (t : Dec)
  /-- the error of `sdk.AccAddressFromBech32` -/
  | addressFormat (cause : String)
  /-- Message `deposit amount cannot be nil` -/
  | depositNil
  /-- the error of `BankKeeper.IsSendEnabledCoins` -/
  | transferDisabled (cause : String)
  /-- Wrapped `ErrUnauthorized`: `%s is not allowed to receive funds` -/
  | unauthorized (contract : String)
  /-- Message `fund deposits cannot be nil or negative` -/
  | depositNilOrNegative
  /-- Wrapped `ErrKeyNotFound`: the pair has no price ticksize configured -/
  | keyNotFoundPrice (priceDenom assetDenom : String)
  /-- Wrapped `ErrKeyNotFound`: the pair has no quantity ticksize configured -/
  | keyNotFoundQuantity (priceDenom assetDenom : String)
deriving DecidableEq, Repr

/-- How a Go call ends: a value with a nil error, an error, or a panic. -/
inductive Result (α : Type) where
  | ok (v : α)
  | error (e : Err)
  | panic (cause : String)
deriving DecidableEq, Repr

/-! ## State and collaborators -/

/-- The state the pipeline writes: the persisted next-order-id counter of each contract, and the
block-scoped deposit ledger of each contract and staging set of each (contract, pair key). -/
structure State where
  nextOrderID : String → Nat
  depositInfo : String → List DepositInfoEntry
  blockOrders : String → String → List Order

/-- Modelled from the spec: `Keeper.GetNextOrderID`, the read `getNext(contract)` of the
order-id counter store. -/
def State.GetNextOrderID (s : State) (contractAddr : String) : Nat :=
  s.nextOrderID contractAddr

/-- Modelled from the spec: `Keeper.SetNextOrderID`, the write `setNext(contract, id)` of the
order-id counter store. -/
def State.SetNextOrderID (s : State) (contractAddr : String) (nextID : Nat) : State :=
  { s with nextOrderID := fun c => if c = contractAddr then nextID else s.nextOrderID c }

/-- Modelled from the spec: `GetMemState(..).GetDepositInfo(ctx, contract).Add(entry)`, the
append `depositLedger(contract).append(entry)` of the block-scoped working state. -/
def State.AddDepositInfo (s : State) (contractAddr : String) (entry : DepositInfoEntry) : State :=
  { s with depositInfo := fun c =>
      if c = contractAddr then s.depositInfo c ++ [entry] else s.depositInfo c }

/-- Modelled from the spec: `GetMemState(..).GetBlockOrders(ctx, contract, pairStr).Add(order)`,
the append `orderStaging(contract, pairKey).append(order)` of the block-scoped working state. -/
def State.AddBlockOrder (s : State) (contractAddr pairStr : String) (order : Order) : State :=
  { s with blockOrders := fun c p =>
      if c = contractAddr ∧ p = pairStr then s.blockOrders c p ++ [order]
      else s.blockOrders c p }

/-- The collaborators the message server reads and never writes: address decoding, the bank
keeper, the tick-size registry and the pair-key function `typesutils.GetPairString`, none of
which is in the source tree. -/
structure Keeper where
  AccAddressFromBech32 : String → Except String AccAddress
  AddrString : AccAddress → String
  IsSendEnabledCoins : List Coin → Option String
  BlockedAddr : AccAddress → Bool
  GetPriceTickSizeForPair : String → Pair → Option Dec
  GetQuantityTickSizeForPair : String → Pair → Option Dec
  GetPairString : Pair → String

/-- Two to the sixty-fourth: the number of `uint64` values. -/
def uint64Size : Nat := 2 ^ 64

/-! ## `validateOrder` -/

/-- Go `validateOrder`; `none` is the nil error. -/
def validateOrder (order : Order) : Option Err :=
  if order.Quantity.IsNil || order.Quantity.IsNegative then
    some (Err.invalidQuantity order.Quantity)
  else if order.Price.IsNil || order.Price.IsNegative then
    some (Err.invalidPrice order.Price)
  else if order.AssetDenom.length = 0 then
    some Err.assetDenomEmpty
  else if order.PriceDenom.length = 0 then
    some Err.priceDenomEmpty
  else if order.OrderType = OrderType.FOKMARKETBYVALUE
      && (order.Nominal.IsNil || order.Nominal.IsNegative) then
    some (Err.invalidNominal order.Nominal)
  else if (order.OrderType = OrderType.STOPLIMIT || order.OrderType = OrderType.STOPLOSS)
      && (order.TriggerPrice.IsNil || order.TriggerPrice.IsNegative) then
    some (Err.invalidTriggerPrice order.TriggerPrice)
  else
    none

/-! ## `transferFunds` -/

/-- The first loop of `transferFunds`: is some amount nil? -/
def anyNilAmount : List Coin → Bool
  | [] => false
  | fund :: rest => if fund.Amount.IsNil then true else anyNilAmount rest

/-- The second loop of `transferFunds` over the remaining funds. -/
def depositLoop (msg : MsgPlaceOrders) : List Coin → State → State × Result Unit
  | [], s => (s, Result.ok ())
  | fund :: rest, s =>
    if fund.Amount.IsNil || fund.IsNegative then
      (s, Result.error Err.depositNilOrNegative)
    else
      match fund.Amount.Int64 with
      | none => (s, Result.panic "Int64() out of bound")
      | some n =>
        depositLoop msg rest
          (s.AddDepositInfo msg.ContractAddr
            { Creator := msg.Creator, Denom := fund.Denom, Amount := NewDec n })

/-- Go `transferFunds`. -/
def transferFunds (k : Keeper) (msg : MsgPlaceOrders) (s : State) : State × Result Unit :=
  if msg.Funds.length = 0 then (s, Result.ok ())
  else
    match k.AccAddressFromBech32 msg.ContractAddr with
    | Except.error cause => (s, Result.error (Err.addressFormat cause))
    | Except.ok contractAddr =>
      if anyNilAmount msg.Funds then (s, Result.error Err.depositNil)
      else
        match k.IsSendEnabledCoins msg.Funds with
        | some cause => (s, Result.error (Err.transferDisabled cause))
        | none =>
          if k.BlockedAddr contractAddr then
            (s, Result.error (Err.unauthorized (k.AddrString contractAddr)))
          else depositLoop msg msg.Funds s

/-! ## `PlaceOrders` -/

/-- The first loop of `PlaceOrders`: the error of the first order `validateOrder` rejects. -/
def validateOrders : List Order → Option Err
  | [] => none
  | order :: rest =>
    match validateOrder order with
    | some err => some err
    | none => validateOrders rest

/-- The lookup key `types.Pair{PriceDenom, AssetDenom}` of an order. -/
def lookupPair (order : Order) : Pair :=
  { PriceDenom := order.PriceDenom, AssetDenom := order.AssetDenom,
    PriceTicksize := none, QuantityTicksize := none }

/-- The second loop of `PlaceOrders` over the remaining orders, from the current `nextID` and
`idsInResp`; on completion it yields the final `nextID` and `idsInResp`. -/
def stageLoop (k : Keeper) (msg : MsgPlaceOrders) :
    List Order → Nat → List Nat → State → State × Result (Nat × List Nat)
  | [], nextID, idsInResp, s => (s, Result.ok (nextID, idsInResp))
  | order :: rest, nextID, idsInResp, s =>
    match k.GetPriceTickSizeForPair msg.ContractAddr (lookupPair order) with
    | none => (s, Result.error (Err.keyNotFoundPrice order.PriceDenom order.AssetDenom))
    | some priceTicksize =>
      match k.GetQuantityTickSizeForPair msg.ContractAddr (lookupPair order) with
      | none => (s, Result.error (Err.keyNotFoundQuantity order.PriceDenom order.AssetDenom))
      | some quantityTicksize =>
        let pair : Pair :=
          { PriceDenom := order.PriceDenom, AssetDenom := order.AssetDenom,
            PriceTicksize := some priceTicksize, QuantityTicksize := some quantityTicksize }
        let pairStr := k.GetPairString pair
        let order1 : Order :=
          { order with Id := nextID, Account := msg.Creator, ContractAddr := msg.ContractAddr }
        stageLoop k msg rest ((nextID + 1) % uint64Size) (idsInResp ++ [nextID])
          (s.AddBlockOrder msg.ContractAddr pairStr order1)

/-- Go `PlaceOrders`. -/
def PlaceOrders (k : Keeper) (msg : MsgPlaceOrders) (s : State) :
    State × Result MsgPlaceOrdersResponse :=
  if msg.Orders.length = 0 then (s, Result.error Err.emptyBatch)
  else
    match validateOrders msg.Orders with
    | some err => (s, Result.error err)
    | none =>
      match transferFunds k msg s with
      | (s1, Result.error err) => (s1, Result.error err)
      | (s1, Result.panic cause) => (s1, Result.panic cause)
      | (s1, Result.ok _) =>
        match stageLoop k msg msg.Orders (s1.GetNextOrderID msg.ContractAddr) [] s1 with
        | (s2, Result.error err) => (s2, Result.error err)
        | (s2, Result.panic cause) => (s2, Result.panic cause)
        | (s2, Result.ok (nextID, idsInResp)) =>
          (s2.SetNextOrderID msg.ContractAddr nextID, Result.ok { OrderIds := idsInResp })

/-! ## Vocabulary of the statements -/

/-- The deposit record `transferFunds` writes for a fund. -/
def depositEntry (msg : MsgPlaceOrders) (fund : Coin) : DepositInfoEntry :=
  { Creator := msg.Creator, Denom := fund.Denom,
    Amount := match fund.Amount.i with
      | some v => NewDec v
      | none => ⟨none⟩ }

/-- The guard of the second loop of `transferFunds` lets the fund through. -/
def Coin.Depositable (fund : Coin) : Bool := !(fund.Amount.IsNil || fund.IsNegative)

/-- The order as `PlaceOrders` stages it: identifier, account and contract filled in. -/
def decorate (msg : MsgPlaceOrders) (id : Nat) (order : Order) : Order :=
  { order with Id := id, Account := msg.Creator, ContractAddr := msg.ContractAddr }

/-- The pair key of the staging set an order goes to: `GetPairString` of the pair augmented with
both tick sizes; `none` when a tick size is not found. -/
def pairKey (k : Keeper) (msg : MsgPlaceOrders) (order : Order) : Option String :=
  match k.GetPriceTickSizeForPair msg.ContractAddr (lookupPair order),
      k.GetQuantityTickSizeForPair msg.ContractAddr (lookupPair order) with
  | some p, some q =>
    some (k.GetPairString
      { PriceDenom := order.PriceDenom, AssetDenom := order.AssetDenom,
        PriceTicksize := some p, QuantityTicksize := some q })
  | _, _ => none

/-- Both tick sizes of the order's pair are found. -/
def Configured (k : Keeper) (msg : MsgPlaceOrders) (order : Order) : Bool :=
  (k.GetPriceTickSizeForPair msg.ContractAddr (lookupPair order)).isSome &&
    (k.GetQuantityTickSizeForPair msg.ContractAddr (lookupPair order)).isSome

/-- The key-not-found error of an order whose pair lacks a tick size: the price tick size is
looked up first. -/
def tickError (k : Keeper) (msg : MsgPlaceOrders) (order : Order) : Err :=
  match k.GetPriceTickSizeForPair msg.ContractAddr (lookupPair order) with
  | none => Err.keyNotFoundPrice order.PriceDenom order.AssetDenom
  | some _ => Err.keyNotFoundQuantity order.PriceDenom order.AssetDenom

/-- Of `orders`, numbered from `n`, those staged under pair key `p`, in order, the order
numbered `i` carrying the identifier `(K + i) mod 2 ^ 64`. -/
def stagedEntries (k : Keeper) (msg : MsgPlaceOrders) (K n : Nat) (orders : List Order)
    (p : String) : List Order :=
  ((orders.enumFrom n).filter (fun io => decide (pairKey k msg io.2 = some p))).map
    (fun io => decorate msg ((K + io.1) % uint64Size) io.2)

/-- A decimal that is present (not nil) and at least zero. -/
def Dec.NonNegative (d : Dec) : Prop := ∃ v : Int, d.i = some v ∧ 0 ≤ v

/-- A decimal is present and at least zero, as a Boolean test. -/
def Dec.PresentNonNeg (d : Dec) : Bool :=
  match d.i with
  | none => false
  | some v => decide (0 ≤ v)

/-- The six checks of the order validator as the spec lists them, in its order; each gives the
error it reports when it fails and `none` when it passes. -/
def orderChecks : List (Order → Option Err) :=
  [ fun o => if o.Quantity.PresentNonNeg then none else some (Err.invalidQuantity o.Quantity),
    fun o => if o.Price.PresentNonNeg then none else some (Err.invalidPrice o.Price),
    fun o => if o.AssetDenom = "" then some Err.assetDenomEmpty else none,
    fun o => if o.PriceDenom = "" then some Err.priceDenomEmpty else none,
    fun o =>
      if o.OrderType = OrderType.FOKMARKETBYVALUE then
        if o.Nominal.PresentNonNeg then none else some (Err.invalidNominal o.Nominal)
      else none,
    fun o =>
      if o.OrderType = OrderType.STOPLIMIT ∨ o.OrderType = OrderType.STOPLOSS then
        if o.TriggerPrice.PresentNonNeg then none
        else some (Err.invalidTriggerPrice o.TriggerPrice)
      else none ]

/-- The error of the first check of `orderChecks` that fails on the order, if any. -/
def firstFailingCheck (o : Order) : Option Err :=
  orderChecks.findSome? (fun check => check o)

/-- The amount of the fund fits a Go `int64`. -/
def Coin.FitsInt64 (fund : Coin) : Bool :=
  match fund.Amount.Int64 with
  | some _ => true
  | none => false

/-- The escrow checks as the spec lists them: the funds list is empty, or else the contract
address decodes, no amount is nil, the coins are send-enabled, the contract is not blocked and
no amount is negative. -/
def EscrowChecksPass (k : Keeper) (msg : MsgPlaceOrders) : Prop :=
  msg.Funds = [] ∨
    ∃ addr, k.AccAddressFromBech32 msg.ContractAddr = Except.ok addr ∧
      (∀ f ∈ msg.Funds, f.Amount.IsNil = false) ∧
      k.IsSendEnabledCoins msg.Funds = none ∧
      k.BlockedAddr addr = false ∧
      (∀ f ∈ msg.Funds, f.IsNegative = false)

/-! ## Concrete inputs for the worked examples -/

/-- A keeper in which `sei1dex` and `sei1blocked` are the well-formed addresses, the second on
the bank block-list; the denomination `ulocked` is not send-enabled; and the contract `sei1dex`
has the pair (USDC, ATOM) configured with price tick 0.01 and quantity tick 0.1. -/
def exKeeper : Keeper where
  AccAddressFromBech32 := fun a =>
    if a = "sei1dex" then Except.ok [1]
    else if a = "sei1blocked" then Except.ok [2]
    else Except.error "decoding bech32 failed"
  AddrString := fun a => if a = [2] then "sei1blocked" else "sei1dex"
  IsSendEnabledCoins := fun coins =>
    if coins.any (fun c => decide (c.Denom = "ulocked")) then
      some "ulocked transfers are currently disabled"
    else none
  BlockedAddr := fun a => decide (a = [2])
  GetPriceTickSizeForPair := fun c p =>
    if c = "sei1dex" ∧ p.PriceDenom = "USDC" ∧ p.AssetDenom = "ATOM" then
      some ⟨some (10 ^ 16)⟩
    else none
  GetQuantityTickSizeForPair := fun c p =>
    if c = "sei1dex" ∧ p.PriceDenom = "USDC" ∧ p.AssetDenom = "ATOM" then
      some ⟨some (10 ^ 17)⟩
    else none
  GetPairString := fun p => p.PriceDenom ++ "|" ++ p.AssetDenom

/-- A state with empty ledgers and staging sets in which every counter is `K`. -/
def exState (K : Nat) : State :=
  { nextOrderID := fun _ => K, depositInfo := fun _ => [], blockOrders := fun _ _ => [] }

/-- A limit order as submitted: price 2, the given quantity, no nominal, no trigger price. -/
def exOrder (priceDenom assetDenom : String) (quantity : Int) : Order :=
  { Id := 0, Account := "", ContractAddr := "",
    Price := NewDec 2, Quantity := NewDec quantity,
    PriceDenom := priceDenom, AssetDenom := assetDenom,
    OrderType := OrderType.LIMIT, PositionDirection := PositionDirection.LONG,
    Nominal := ⟨none⟩, TriggerPrice := ⟨none⟩ }

/-- A message of the creator `sei1alice`. -/
def exMsg (contract : String) (orders : List Order) (funds : List Coin) : MsgPlaceOrders :=
  { Creator := "sei1alice", Orders := orders, ContractAddr := contract, Funds := funds }

/-- Two valid orders on the configured pair (USDC, ATOM), no funds. -/
def atomBatch : MsgPlaceOrders :=
  exMsg "sei1dex" [exOrder "USDC" "ATOM" 1, exOrder "USDC" "ATOM" 3] []

/-- One valid order on the configured pair, no funds. -/
def singleBatch : MsgPlaceOrders :=
  exMsg "sei1dex" [exOrder "USDC" "ATOM" 1] []

/-- A valid order on the configured pair followed by a valid order on the pair (USDC, OSMO),
which has no tick size. -/
def mixedBatch : MsgPlaceOrders :=
  exMsg "sei1dex" [exOrder "USDC" "ATOM" 1, exOrder "USDC" "OSMO" 1] []

/-- A valid order with two funds, the second of a negative amount. -/
def negativeFundBatch : MsgPlaceOrders :=
  exMsg "sei1dex" [exOrder "USDC" "ATOM" 1] [⟨"uusdc", ⟨some 5⟩⟩, ⟨"uusdc", ⟨some (-1)⟩⟩]

/-- A valid order followed by an order of negative quantity, with a fund attached. -/
def invalidOrderBatch : MsgPlaceOrders :=
  exMsg "sei1dex" [exOrder "USDC" "ATOM" 1, exOrder "USDC" "ATOM" (-1)] [⟨"uusdc", ⟨some 5⟩⟩]

/-- A valid order for the blocked contract, with a send-enabled fund. -/
def blockedBatch : MsgPlaceOrders :=
  exMsg "sei1blocked" [exOrder "USDC" "ATOM" 1] [⟨"uusdc", ⟨some 5⟩⟩]

/-- A valid order for the blocked contract, with a fund whose denomination is not
send-enabled. -/
def blockedLockedBatch : MsgPlaceOrders :=
  exMsg "sei1blocked" [exOrder "USDC" "ATOM" 1] [⟨"ulocked", ⟨some 5⟩⟩]

/-- A batch without funds for a contract address that does not decode. -/
def noFundsBatch : MsgPlaceOrders :=
  exMsg "not-an-address" [exOrder "USDC" "ATOM" 1] []

/-- A valid order with two funds of different denominations. -/
def twoFundsBatch : MsgPlaceOrders :=
  exMsg "sei1dex" [exOrder "USDC" "ATOM" 1] [⟨"uusdc", ⟨some 5⟩⟩, ⟨"uatom", ⟨some 0⟩⟩]

/-- A valid order for the blocked contract, with a single fund of negative amount. -/
def negativeBlockedBatch : MsgPlaceOrders :=
  exMsg "sei1blocked" [exOrder "USDC" "ATOM" 1] [⟨"uusdc", ⟨some (-1)⟩⟩]

/-- A valid order on the configured pair with a single fund of amount `2 ^ 63`, one more than
the largest `int64`. -/
def bigFundBatch : MsgPlaceOrders :=
  exMsg "sei1dex" [exOrder "USDC" "ATOM" 1] [⟨"uusdc", ⟨some (2 ^ 63)⟩⟩]

/-- Two valid orders on the configured pair followed by a valid order on the unconfigured pair
(USDC, OSMO), with one fund attached. -/
def thirdUnconfiguredBatch : MsgPlaceOrders :=
  exMsg "sei1dex"
    [exOrder "USDC" "ATOM" 1, exOrder "USDC" "ATOM" 3, exOrder "USDC" "OSMO" 1]
    [⟨"uusdc", ⟨some 5⟩⟩]

/-- A batch without orders and without funds. -/
def emptyBatch : MsgPlaceOrders := exMsg "sei1dex" [] []

/-- A batch for the blocked contract whose only order has a negative quantity and an
unconfigured pair, with a fund of negative amount in a denomination that is not
send-enabled. -/
def allBadBatch : MsgPlaceOrders :=
  exMsg "sei1blocked" [exOrder "USDC" "OSMO" (-1)] [⟨"ulocked", ⟨some (-1)⟩⟩]

/-- An order with a negative quantity and an empty asset denomination. -/
def negativeQuantityNoAsset : Order := exOrder "USDC" "" (-1)

/-- An order with a nil price and an empty price denomination. -/
def nilPriceNoPriceDenom : Order := { exOrder "" "ATOM" 1 with Price := ⟨none⟩ }

/-- The order `exOrder "USDC" "ATOM" 1` after decoration, and with the opposite direction. -/
def decoratedShortOrder : Order :=
  { exOrder "USDC" "ATOM" 1 with
      Id := 5, Account := "sei1alice", ContractAddr := "sei1dex",
      PositionDirection := PositionDirection.SHORT }

/-- A valid order for the blocked contract, with a single fund of nil amount in a denomination
that is not send-enabled. -/
def nilFundBatch : MsgPlaceOrders :=
  exMsg "sei1blocked" [exOrder "USDC" "ATOM" 1] [⟨"ulocked", ⟨none⟩⟩]

/-! ## Lemmas about the loops -/

theorem validateOrders_eq_none_iff (orders : List Order) :
    validateOrders orders = none ↔ ∀ o ∈ orders, validateOrder o = none := by
  induction orders with
  | nil => simp [validateOrders]
  | cons o rest ih =>
    cases h : validateOrder o with
    | none => simp [validateOrders, h, ih]
    | some e => simp [validateOrders, h]

theorem validateOrders_eq_some (orders : List Order) (e : Err)
    (h : validateOrders orders = some e) :
    ∃ pre o post, orders = pre ++ o :: post ∧ (∀ x ∈ pre, validateOrder x = none) ∧
      validateOrder o = some e := by
  induction orders with
  | nil => simp [validateOrders] at h
  | cons o rest ih =>
    cases ho : validateOrder o with
    | none =>
      simp only [validateOrders, ho] at h
      obtain ⟨pre, x, post, hsplit, hpre, hx⟩ := ih h
      refine ⟨o :: pre, x, post, by simp [hsplit], ?_, hx⟩
      intro y hy
      rcases List.mem_cons.mp hy with rfl | hy
      · exact ho
      · exact hpre y hy
    | some e1 =>
      simp only [validateOrders, ho, Option.some.injEq] at h
      subst h
      exact ⟨[], o, rest, rfl, by simp, ho⟩

theorem int64_eq_some (a : SdkInt) (n : Int) (h : a.Int64 = some n) : a.i = some n := by
  obtain ⟨i⟩ := a
  cases i with
  | none => simp [SdkInt.Int64] at h
  | some v =>
    simp only [SdkInt.Int64] at h
    split_ifs at h
    simpa using h

theorem depositLoop_frame (msg : MsgPlaceOrders) (funds : List Coin) (s : State) :
    (depositLoop msg funds s).1.nextOrderID = s.nextOrderID ∧
    (depositLoop msg funds s).1.blockOrders = s.blockOrders ∧
    ∀ c, c ≠ msg.ContractAddr → (depositLoop msg funds s).1.depositInfo c = s.depositInfo c := by
  induction funds generalizing s with
  | nil => simp [depositLoop]
  | cons fund rest ih =>
    unfold depositLoop
    split_ifs with hg
    · simp
    · cases h64 : fund.Amount.Int64 with
      | none => simp
      | some n =>
        obtain ⟨h1, h2, h3⟩ := ih (s.AddDepositInfo msg.ContractAddr
            { Creator := msg.Creator, Denom := fund.Denom, Amount := NewDec n })
        refine ⟨h1, h2, ?_⟩
        intro c hc
        simp only []
        rw [h3 c hc]
        simp [State.AddDepositInfo, hc]

theorem depositLoop_ok (msg : MsgPlaceOrders) (funds : List Coin) (s s1 : State)
    (h : depositLoop msg funds s = (s1, Result.ok ())) :
    s1.depositInfo msg.ContractAddr
      = s.depositInfo msg.ContractAddr ++ funds.map (depositEntry msg) := by
  induction funds generalizing s with
  | nil =>
    simp only [depositLoop, Prod.mk.injEq] at h
    simp [← h.1]
  | cons fund rest ih =>
    unfold depositLoop at h
    split_ifs at h with hg
    · simp at h
    · cases h64 : fund.Amount.Int64 with
      | none => simp [h64] at h
      | some n =>
        simp only [h64] at h
        rw [ih _ h]
        simp [State.AddDepositInfo, depositEntry, int64_eq_some _ _ h64]

theorem depositLoop_error (msg : MsgPlaceOrders) (funds : List Coin) (s s1 : State) (e : Err)
    (h : depositLoop msg funds s = (s1, Result.error e)) :
    e = Err.depositNilOrNegative ∧
    s1.depositInfo msg.ContractAddr
      = s.depositInfo msg.ContractAddr
          ++ (funds.takeWhile Coin.Depositable).map (depositEntry msg) := by
  induction funds generalizing s with
  | nil => simp [depositLoop] at h
  | cons fund rest ih =>
    unfold depositLoop at h
    split_ifs at h with hg
    · simp only [Prod.mk.injEq, Result.error.injEq] at h
      refine ⟨h.2.symm, ?_⟩
      simp [← h.1, List.takeWhile, Coin.Depositable, hg]
    · cases h64 : fund.Amount.Int64 with
      | none => simp [h64] at h
      | some n =>
        simp only [h64] at h
        obtain ⟨he, hl⟩ := ih _ h
        refine ⟨he, ?_⟩
        rw [hl]
        have hd : Coin.Depositable fund = true := by simpa [Coin.Depositable] using hg
        simp [State.AddDepositInfo, depositEntry, int64_eq_some _ _ h64, List.takeWhile, hd]

theorem stageLoop_state (k : Keeper) (msg : MsgPlaceOrders) (K : Nat) (orders : List Order)
    (n : Nat) (ids : List Nat) (s : State) :
    (stageLoop k msg orders ((K + n) % uint64Size) ids s).1.nextOrderID = s.nextOrderID ∧
    (stageLoop k msg orders ((K + n) % uint64Size) ids s).1.depositInfo = s.depositInfo ∧
    (∀ c p, c ≠ msg.ContractAddr →
      (stageLoop k msg orders ((K + n) % uint64Size) ids s).1.blockOrders c p
        = s.blockOrders c p) ∧
    ∀ p, (stageLoop k msg orders ((K + n) % uint64Size) ids s).1.blockOrders msg.ContractAddr p
        = s.blockOrders msg.ContractAddr p
            ++ stagedEntries k msg K n (orders.takeWhile (Configured k msg)) p := by
  induction orders generalizing n ids s with
  | nil => simp [stageLoop, stagedEntries]
  | cons o rest ih =>
    unfold stageLoop
    cases hp : k.GetPriceTickSizeForPair msg.ContractAddr (lookupPair o) with
    | none => simp [stagedEntries, List.takeWhile, Configured, hp]
    | some pt =>
      cases hq : k.GetQuantityTickSizeForPair msg.ContractAddr (lookupPair o) with
      | none => simp [stagedEntries, List.takeWhile, Configured, hp, hq]
      | some qt =>
        simp only []
        rw [Nat.mod_add_mod, Nat.add_assoc]
        obtain ⟨h1, h2, h3, h4⟩ := ih (n + 1) (ids ++ [(K + n) % uint64Size])
          (s.AddBlockOrder msg.ContractAddr (k.GetPairString
            { PriceDenom := o.PriceDenom, AssetDenom := o.AssetDenom,
              PriceTicksize := some pt, QuantityTicksize := some qt })
            { o with Id := (K + n) % uint64Size, Account := msg.Creator,
                     ContractAddr := msg.ContractAddr })
        refine ⟨h1, h2, ?_, ?_⟩
        · intro c p hc
          rw [h3 c p hc]
          simp [State.AddBlockOrder, hc]
        · intro p
          rw [h4 p]
          have hc : Configured k msg o = true := by simp [Configured, hp, hq]
          simp only [List.takeWhile, hc, stagedEntries, List.enumFrom, List.filter, pairKey,
            hp, hq, State.AddBlockOrder]
          by_cases hk : k.GetPairString
              { PriceDenom := o.PriceDenom, AssetDenom := o.AssetDenom,
                PriceTicksize := some pt, QuantityTicksize := some qt } = p
          · simp [hk, decorate]
          · have hk2 : ¬ p = k.GetPairString
              { PriceDenom := o.PriceDenom, AssetDenom := o.AssetDenom,
                PriceTicksize := some pt, QuantityTicksize := some qt } := fun h => hk h.symm
            simp [hk, hk2]

theorem stageLoop_result (k : Keeper) (msg : MsgPlaceOrders) (K : Nat) (orders : List Order)
    (n : Nat) (ids : List Nat) (s : State) :
    (stageLoop k msg orders ((K + n) % uint64Size) ids s).2 =
      match orders.dropWhile (Configured k msg) with
      | [] => Result.ok ((K + n + orders.length) % uint64Size,
                ids ++ (List.range' n orders.length).map (fun i => (K + i) % uint64Size))
      | o :: _ => Result.error (tickError k msg o) := by
  induction orders generalizing n ids s with
  | nil => simp [stageLoop]
  | cons o rest ih =>
    unfold stageLoop
    cases hp : k.GetPriceTickSizeForPair msg.ContractAddr (lookupPair o) with
    | none => simp [List.dropWhile, Configured, hp, tickError]
    | some pt =>
      cases hq : k.GetQuantityTickSizeForPair msg.ContractAddr (lookupPair o) with
      | none => simp [List.dropWhile, Configured, hp, hq, tickError]
      | some qt =>
        simp only []
        rw [Nat.mod_add_mod, Nat.add_assoc, ih]
        have hc : Configured k msg o = true := by simp [Configured, hp, hq]
        simp only [List.dropWhile, hc]
        cases List.dropWhile (Configured k msg) rest with
        | nil =>
          simp [List.range', Nat.add_assoc, Nat.add_comm 1]
        | cons x xs => simp

theorem stageLoop_frame (k : Keeper) (msg : MsgPlaceOrders) (orders : List Order)
    (nextID : Nat) (ids : List Nat) (s : State) :
    (stageLoop k msg orders nextID ids s).1.nextOrderID = s.nextOrderID ∧
    (stageLoop k msg orders nextID ids s).1.depositInfo = s.depositInfo ∧
    ∀ c p, c ≠ msg.ContractAddr →
      (stageLoop k msg orders nextID ids s).1.blockOrders c p = s.blockOrders c p := by
  induction orders generalizing nextID ids s with
  | nil => simp [stageLoop]
  | cons o rest ih =>
    unfold stageLoop
    cases hp : k.GetPriceTickSizeForPair msg.ContractAddr (lookupPair o) with
    | none => simp
    | some pt =>
      cases hq : k.GetQuantityTickSizeForPair msg.ContractAddr (lookupPair o) with
      | none => simp
      | some qt =>
        simp only []
        obtain ⟨h1, h2, h3⟩ := ih ((nextID + 1) % uint64Size) (ids ++ [nextID])
          (s.AddBlockOrder msg.ContractAddr (k.GetPairString
            { PriceDenom := o.PriceDenom, AssetDenom := o.AssetDenom,
              PriceTicksize := some pt, QuantityTicksize := some qt })
            { o with Id := nextID, Account := msg.Creator, ContractAddr := msg.ContractAddr })
        refine ⟨h1, h2, ?_⟩
        intro c p hc
        rw [h3 c p hc]
        simp [State.AddBlockOrder, hc]

theorem stageLoop_error (k : Keeper) (msg : MsgPlaceOrders) (orders : List Order)
    (nextID : Nat) (ids : List Nat) (s : State) (o : Order) (post : List Order)
    (h : orders.dropWhile (Configured k msg) = o :: post) :
    (stageLoop k msg orders nextID ids s).2 = Result.error (tickError k msg o) := by
  induction orders generalizing nextID ids s with
  | nil => simp at h
  | cons x rest ih =>
    unfold stageLoop
    cases hp : k.GetPriceTickSizeForPair msg.ContractAddr (lookupPair x) with
    | none =>
      simp only [List.dropWhile, Configured, hp, Option.isSome_none, Bool.false_and,
        List.cons.injEq] at h
      simp [← h.1, tickError, hp]
    | some pt =>
      cases hq : k.GetQuantityTickSizeForPair msg.ContractAddr (lookupPair x) with
      | none =>
        simp only [List.dropWhile, Configured, hp, hq, Option.isSome_none, Bool.and_false,
          List.cons.injEq] at h
        simp [← h.1, tickError, hp]
      | some qt =>
        simp only []
        apply ih
        simpa [List.dropWhile, Configured, hp, hq] using h

theorem stageLoop_not_panic (k : Keeper) (msg : MsgPlaceOrders) (orders : List Order)
    (nextID : Nat) (ids : List Nat) (s : State) (cause : String) :
    (stageLoop k msg orders nextID ids s).2 ≠ Result.panic cause := by
  induction orders generalizing nextID ids s with
  | nil => simp [stageLoop]
  | cons x rest ih =>
    unfold stageLoop
    cases hp : k.GetPriceTickSizeForPair msg.ContractAddr (lookupPair x) with
    | none => simp
    | some pt =>
      cases hq : k.GetQuantityTickSizeForPair msg.ContractAddr (lookupPair x) with
      | none => simp
      | some qt => exact ih _ _ _

theorem dropWhile_eq_nil_iff_all (k : Keeper) (msg : MsgPlaceOrders) (orders : List Order) :
    orders.dropWhile (Configured k msg) = [] ↔ ∀ o ∈ orders, Configured k msg o = true := by
  induction orders with
  | nil => simp
  | cons x rest ih =>
    cases hx : Configured k msg x with
    | true => simp [List.dropWhile, hx, ih]
    | false => simp [List.dropWhile, hx]

theorem takeWhile_eq_self_of_all (k : Keeper) (msg : MsgPlaceOrders) (orders : List Order)
    (h : ∀ o ∈ orders, Configured k msg o = true) :
    orders.takeWhile (Configured k msg) = orders := by
  induction orders with
  | nil => simp
  | cons x rest ih =>
    have hx : Configured k msg x = true := h x (List.mem_cons_self _ _)
    simp only [List.takeWhile, hx]
    rw [ih (fun o ho => h o (List.mem_cons_of_mem _ ho))]

theorem dropWhile_head_of_exists (k : Keeper) (msg : MsgPlaceOrders) (orders : List Order)
    (h : ∃ o ∈ orders, Configured k msg o = false) :
    ∃ o post, orders.dropWhile (Configured k msg) = o :: post ∧ Configured k msg o = false ∧
      orders = orders.takeWhile (Configured k msg) ++ o :: post ∧
      ∀ x ∈ orders.takeWhile (Configured k msg), Configured k msg x = true := by
  induction orders with
  | nil => simp at h
  | cons x rest ih =>
    cases hx : Configured k msg x with
    | false => exact ⟨x, rest, by simp [List.dropWhile, hx], hx, by simp [List.takeWhile, hx],
        by simp [List.takeWhile, hx]⟩
    | true =>
      obtain ⟨o, ho, hc⟩ := h
      rcases List.mem_cons.mp ho with rfl | ho
      · rw [hx] at hc; exact absurd hc (by simp)
      · obtain ⟨y, post, h1, h2, h3, h4⟩ := ih ⟨o, ho, hc⟩
        refine ⟨y, post, by simp [List.dropWhile, hx, h1], h2, ?_, ?_⟩
        · simp only [List.takeWhile, hx, List.cons_append]
          rw [← h3]
        · intro z hz
          simp only [List.takeWhile, hx] at hz
          rcases List.mem_cons.mp hz with rfl | hz
          · exact hx
          · exact h4 z hz

theorem transferFunds_frame (k : Keeper) (msg : MsgPlaceOrders) (s : State) :
    (transferFunds k msg s).1.nextOrderID = s.nextOrderID ∧
    (transferFunds k msg s).1.blockOrders = s.blockOrders ∧
    ∀ c, c ≠ msg.ContractAddr → (transferFunds k msg s).1.depositInfo c = s.depositInfo c := by
  by_cases h0 : msg.Funds.length = 0
  · simp [transferFunds, h0]
  cases ha : k.AccAddressFromBech32 msg.ContractAddr with
  | error cause => simp [transferFunds, h0, ha]
  | ok addr =>
    by_cases h1 : anyNilAmount msg.Funds = true
    · simp [transferFunds, h0, ha, h1]
    cases hs : k.IsSendEnabledCoins msg.Funds with
    | some cause => simp [transferFunds, h0, ha, h1, hs]
    | none =>
      by_cases h2 : k.BlockedAddr addr = true
      · simp [transferFunds, h0, ha, h1, hs, h2]
      · have hEq : transferFunds k msg s = depositLoop msg msg.Funds s := by
          simp [transferFunds, h0, ha, h1, hs, h2]
        rw [hEq]
        exact depositLoop_frame msg msg.Funds s

theorem transferFunds_ok (k : Keeper) (msg : MsgPlaceOrders) (s s1 : State)
    (h : transferFunds k msg s = (s1, Result.ok ())) :
    depositLoop msg msg.Funds s = (s1, Result.ok ()) := by
  by_cases h0 : msg.Funds.length = 0
  · have hf : msg.Funds = [] := List.length_eq_zero.mp h0
    simp only [transferFunds, h0, if_true] at h
    simpa [hf, depositLoop] using h
  cases ha : k.AccAddressFromBech32 msg.ContractAddr with
  | error cause => simp [transferFunds, h0, ha] at h
  | ok addr =>
    by_cases h1 : anyNilAmount msg.Funds = true
    · simp [transferFunds, h0, ha, h1] at h
    cases hs : k.IsSendEnabledCoins msg.Funds with
    | some cause => simp [transferFunds, h0, ha, h1, hs] at h
    | none =>
      by_cases h2 : k.BlockedAddr addr = true
      · simp [transferFunds, h0, ha, h1, hs, h2] at h
      · simpa [transferFunds, h0, ha, h1, hs, h2] using h

theorem transferFunds_error (k : Keeper) (msg : MsgPlaceOrders) (s s1 : State) (e : Err)
    (h : transferFunds k msg s = (s1, Result.error e)) :
    (e ≠ Err.depositNilOrNegative → s1 = s) ∧
    (e = Err.depositNilOrNegative →
      s1.depositInfo msg.ContractAddr
        = s.depositInfo msg.ContractAddr
            ++ (msg.Funds.takeWhile Coin.Depositable).map (depositEntry msg)) := by
  by_cases h0 : msg.Funds.length = 0
  · simp [transferFunds, h0] at h
  cases ha : k.AccAddressFromBech32 msg.ContractAddr with
  | error cause =>
    simp only [transferFunds, h0, if_false, ha, Prod.mk.injEq, Result.error.injEq] at h
    obtain ⟨rfl, rfl⟩ := h
    simp
  | ok addr =>
    by_cases h1 : anyNilAmount msg.Funds = true
    · simp only [transferFunds, h0, if_false, ha, h1, if_true, Prod.mk.injEq,
        Result.error.injEq] at h
      obtain ⟨rfl, rfl⟩ := h
      simp
    cases hs : k.IsSendEnabledCoins msg.Funds with
    | some cause =>
      simp only [transferFunds, h0, if_false, ha, h1, hs, Prod.mk.injEq,
        Result.error.injEq] at h
      obtain ⟨rfl, rfl⟩ := h
      simp
    | none =>
      by_cases h2 : k.BlockedAddr addr = true
      · simp only [transferFunds, h0, if_false, ha, h1, hs, h2, if_true, Prod.mk.injEq,
          Result.error.injEq] at h
        obtain ⟨rfl, rfl⟩ := h
        simp
      · have hEq : transferFunds k msg s = depositLoop msg msg.Funds s := by
          simp [transferFunds, h0, ha, h1, hs, h2]
        rw [hEq] at h
        obtain ⟨he, hl⟩ := depositLoop_error msg msg.Funds s s1 e h
        exact ⟨fun hne => absurd he hne, fun _ => hl⟩

theorem PlaceOrders_empty (k : Keeper) (msg : MsgPlaceOrders) (s : State)
    (h : msg.Orders = []) : PlaceOrders k msg s = (s, Result.error Err.emptyBatch) := by
  simp [PlaceOrders, h]

theorem PlaceOrders_invalid (k : Keeper) (msg : MsgPlaceOrders) (s : State) (e : Err)
    (h : validateOrders msg.Orders = some e) : PlaceOrders k msg s = (s, Result.error e) := by
  have hne : ¬ msg.Orders.length = 0 := by
    intro h0
    rw [List.length_eq_zero.mp h0] at h
    simp [validateOrders] at h
  simp [PlaceOrders, hne, h]

theorem PlaceOrders_escrow_error (k : Keeper) (msg : MsgPlaceOrders) (s s1 : State) (e : Err)
    (hne : msg.Orders ≠ []) (hv : validateOrders msg.Orders = none)
    (ht : transferFunds k msg s = (s1, Result.error e)) :
    PlaceOrders k msg s = (s1, Result.error e) := by
  have h0 : ¬ msg.Orders.length = 0 := fun h => hne (List.length_eq_zero.mp h)
  simp [PlaceOrders, h0, hv, ht]

theorem PlaceOrders_escrow_panic (k : Keeper) (msg : MsgPlaceOrders) (s s1 : State)
    (cause : String) (hne : msg.Orders ≠ []) (hv : validateOrders msg.Orders = none)
    (ht : transferFunds k msg s = (s1, Result.panic cause)) :
    PlaceOrders k msg s = (s1, Result.panic cause) := by
  have h0 : ¬ msg.Orders.length = 0 := fun h => hne (List.length_eq_zero.mp h)
  simp [PlaceOrders, h0, hv, ht]

theorem PlaceOrders_tick_error (k : Keeper) (msg : MsgPlaceOrders) (s s1 : State)
    (o : Order) (post : List Order)
    (hne : msg.Orders ≠ []) (hv : validateOrders msg.Orders = none)
    (ht : transferFunds k msg s = (s1, Result.ok ()))
    (hd : msg.Orders.dropWhile (Configured k msg) = o :: post) :
    PlaceOrders k msg s
      = ((stageLoop k msg msg.Orders (s.nextOrderID msg.ContractAddr) [] s1).1,
          Result.error (tickError k msg o)) := by
  have h0 : ¬ msg.Orders.length = 0 := fun h => hne (List.length_eq_zero.mp h)
  have hK : s1.GetNextOrderID msg.ContractAddr = s.nextOrderID msg.ContractAddr := by
    have hf := (transferFunds_frame k msg s).1
    rw [ht] at hf
    exact congrFun hf msg.ContractAddr
  have hr := stageLoop_error k msg msg.Orders (s.nextOrderID msg.ContractAddr) [] s1 o post hd
  simp only [PlaceOrders, h0, if_false, hv, ht, hK]
  generalize stageLoop k msg msg.Orders (s.nextOrderID msg.ContractAddr) [] s1 = r at hr
  obtain ⟨r1, r2⟩ := r
  simp only at hr
  subst hr
  rfl

theorem PlaceOrders_staged (k : Keeper) (msg : MsgPlaceOrders) (s s1 : State)
    (hne : msg.Orders ≠ []) (hv : validateOrders msg.Orders = none)
    (ht : transferFunds k msg s = (s1, Result.ok ()))
    (hall : ∀ o ∈ msg.Orders, Configured k msg o = true)
    (hK : s.nextOrderID msg.ContractAddr < uint64Size) :
    PlaceOrders k msg s
      = (State.SetNextOrderID
            (stageLoop k msg msg.Orders (s.nextOrderID msg.ContractAddr) [] s1).1
            msg.ContractAddr
            ((s.nextOrderID msg.ContractAddr + msg.Orders.length) % uint64Size),
          Result.ok ⟨(List.range' 0 msg.Orders.length).map
            (fun i => (s.nextOrderID msg.ContractAddr + i) % uint64Size)⟩) := by
  have h0 : ¬ msg.Orders.length = 0 := fun h => hne (List.length_eq_zero.mp h)
  have hK1 : s1.GetNextOrderID msg.ContractAddr = s.nextOrderID msg.ContractAddr := by
    have hf := (transferFunds_frame k msg s).1
    rw [ht] at hf
    exact congrFun hf msg.ContractAddr
  have hr := stageLoop_result k msg (s.nextOrderID msg.ContractAddr) msg.Orders 0 [] s1
  rw [(dropWhile_eq_nil_iff_all k msg msg.Orders).mpr hall] at hr
  simp only [Nat.add_zero, Nat.mod_eq_of_lt hK, List.nil_append] at hr
  simp only [PlaceOrders, h0, if_false, hv, ht, hK1]
  generalize stageLoop k msg msg.Orders (s.nextOrderID msg.ContractAddr) [] s1 = r at hr
  obtain ⟨r1, r2⟩ := r
  simp only at hr
  subst hr
  rfl

theorem PlaceOrders_ok_inv (k : Keeper) (msg : MsgPlaceOrders) (s s2 : State)
    (resp : MsgPlaceOrdersResponse) (h : PlaceOrders k msg s = (s2, Result.ok resp)) :
    msg.Orders ≠ [] ∧ validateOrders msg.Orders = none ∧
      (∃ s1, transferFunds k msg s = (s1, Result.ok ())) ∧
      ∀ o ∈ msg.Orders, Configured k msg o = true := by
  have hne : msg.Orders ≠ [] := by
    intro h0
    rw [PlaceOrders_empty k msg s h0] at h
    simp at h
  have hv : validateOrders msg.Orders = none := by
    cases hv : validateOrders msg.Orders with
    | none => rfl
    | some e =>
      rw [PlaceOrders_invalid k msg s e hv] at h
      simp at h
  have ht : ∃ s1, transferFunds k msg s = (s1, Result.ok ()) := by
    rcases hr : transferFunds k msg s with ⟨s1, r⟩
    cases r with
    | ok v => exact ⟨s1, rfl⟩
    | error e =>
      rw [PlaceOrders_escrow_error k msg s s1 e hne hv hr] at h
      simp at h
    | panic cause =>
      rw [PlaceOrders_escrow_panic k msg s s1 cause hne hv hr] at h
      simp at h
  refine ⟨hne, hv, ht, ?_⟩
  obtain ⟨s1, ht⟩ := ht
  rw [← dropWhile_eq_nil_iff_all]
  cases hd : msg.Orders.dropWhile (Configured k msg) with
  | nil => rfl
  | cons o post =>
    rw [PlaceOrders_tick_error k msg s s1 o post hne hv ht hd] at h
    simp at h


theorem Dec.nonNegative_iff (d : Dec) :
    d.NonNegative ↔ (d.IsNil || d.IsNegative) = false := by
  obtain ⟨i⟩ := d
  cases i with
  | none => simp [Dec.NonNegative, Dec.IsNil, Dec.IsNegative]
  | some v => simp [Dec.NonNegative, Dec.IsNil, Dec.IsNegative]

theorem length_zero_iff (s : String) : s.length = 0 ↔ s = "" := by
  constructor
  · intro h
    obtain ⟨l⟩ := s
    have hl : l = [] := List.length_eq_zero.mp h
    subst hl
    rfl
  · intro h
    subst h
    rfl

theorem depositable_amount (fund : Coin) (h : fund.Depositable = true) :
    ∃ v : Int, fund.Amount.i = some v ∧ 0 ≤ v := by
  obtain ⟨denom, ⟨i⟩⟩ := fund
  cases i with
  | none => simp [Coin.Depositable, SdkInt.IsNil] at h
  | some v =>
    refine ⟨v, rfl, ?_⟩
    by_contra hv
    have hlt : v < 0 := by omega
    simp [Coin.Depositable, SdkInt.IsNil, Coin.IsNegative, SdkInt.Sign, hlt] at h

theorem depositLoop_ok_amounts (msg : MsgPlaceOrders) (funds : List Coin) (s s1 : State)
    (h : depositLoop msg funds s = (s1, Result.ok ())) :
    ∀ f ∈ funds, f.Depositable = true ∧ ∃ n, f.Amount.Int64 = some n := by
  induction funds generalizing s with
  | nil => simp
  | cons fund rest ih =>
    unfold depositLoop at h
    split_ifs at h with hg
    · simp at h
    · cases h64 : fund.Amount.Int64 with
      | none => simp [h64] at h
      | some n =>
        simp only [h64] at h
        intro f hf
        rcases List.mem_cons.mp hf with rfl | hf
        · exact ⟨by simpa [Coin.Depositable] using hg, n, h64⟩
        · exact ih _ h f hf

theorem ids_no_wrap (K N : Nat) (h : K + N ≤ uint64Size) :
    (List.range' 0 N).map (fun i => (K + i) % uint64Size) = List.range' K N := by
  rw [List.range'_eq_map_range K N, ← List.range_eq_range']
  apply List.map_congr_left
  intro i hi
  have hi2 : i < N := List.mem_range.mp hi
  exact Nat.mod_eq_of_lt (by omega)

theorem mem_enumFrom_bound (orders : List Order) (n : Nat) (io : Nat × Order)
    (h : io ∈ orders.enumFrom n) : io.1 < n + orders.length := by
  induction orders generalizing n with
  | nil => simp at h
  | cons o rest ih =>
    simp only [List.enumFrom, List.mem_cons] at h
    rcases h with rfl | h
    · simp
    · have := ih (n + 1) h
      simp only [List.length_cons]
      omega

theorem stagedEntries_no_wrap (k : Keeper) (msg : MsgPlaceOrders) (K : Nat)
    (orders : List Order) (p : String) (h : K + orders.length ≤ uint64Size) :
    stagedEntries k msg K 0 orders p
      = ((orders.enum.filter (fun io => decide (pairKey k msg io.2 = some p))).map
          (fun io => decorate msg (K + io.1) io.2)) := by
  unfold stagedEntries List.enum
  apply List.map_congr_left
  intro io hio
  have hmem : io ∈ orders.enumFrom 0 := (List.mem_filter.mp hio).1
  have hb := mem_enumFrom_bound orders 0 io hmem
  rw [Nat.mod_eq_of_lt (by omega)]

theorem stageLoop_ok_of_all (k : Keeper) (msg : MsgPlaceOrders) (orders : List Order)
    (nextID : Nat) (ids : List Nat) (s : State)
    (hall : ∀ o ∈ orders, Configured k msg o = true) :
    ∃ v, (stageLoop k msg orders nextID ids s).2 = Result.ok v := by
  induction orders generalizing nextID ids s with
  | nil => exact ⟨_, rfl⟩
  | cons x rest ih =>
    have hx : Configured k msg x = true := hall x (List.mem_cons_self _ _)
    unfold stageLoop
    cases hp : k.GetPriceTickSizeForPair msg.ContractAddr (lookupPair x) with
    | none => simp [Configured, hp] at hx
    | some pt =>
      cases hq : k.GetQuantityTickSizeForPair msg.ContractAddr (lookupPair x) with
      | none => simp [Configured, hp, hq] at hx
      | some qt => exact ih _ _ _ (fun o ho => hall o (List.mem_cons_of_mem _ ho))

theorem PlaceOrders_succeeds (k : Keeper) (msg : MsgPlaceOrders) (s s1 : State)
    (hne : msg.Orders ≠ []) (hv : validateOrders msg.Orders = none)
    (ht : transferFunds k msg s = (s1, Result.ok ()))
    (hall : ∀ o ∈ msg.Orders, Configured k msg o = true) :
    ∃ resp, (PlaceOrders k msg s).2 = Result.ok resp := by
  have h0 : ¬ msg.Orders.length = 0 := fun h => hne (List.length_eq_zero.mp h)
  obtain ⟨v, hr⟩ := stageLoop_ok_of_all k msg msg.Orders (s1.GetNextOrderID msg.ContractAddr)
    [] s1 hall
  simp only [PlaceOrders, h0, if_false, hv, ht]
  generalize stageLoop k msg msg.Orders (s1.GetNextOrderID msg.ContractAddr) [] s1 = r at hr
  obtain ⟨r1, r2⟩ := r
  simp only at hr
  subst hr
  exact ⟨_, rfl⟩

theorem PlaceOrders_counter_unchanged (k : Keeper) (msg : MsgPlaceOrders) (s : State)
    (h : ∀ resp, (PlaceOrders k msg s).2 ≠ Result.ok resp) :
    (PlaceOrders k msg s).1.nextOrderID = s.nextOrderID := by
  by_cases hne : msg.Orders = []
  · rw [PlaceOrders_empty k msg s hne]
  cases hv : validateOrders msg.Orders with
  | some e => rw [PlaceOrders_invalid k msg s e hv]
  | none =>
    have hfr := (transferFunds_frame k msg s).1
    rcases ht : transferFunds k msg s with ⟨s1, r⟩
    rw [ht] at hfr
    cases r with
    | error e => rw [PlaceOrders_escrow_error k msg s s1 e hne hv ht]; exact hfr
    | panic cause => rw [PlaceOrders_escrow_panic k msg s s1 cause hne hv ht]; exact hfr
    | ok v =>
      cases hd : msg.Orders.dropWhile (Configured k msg) with
      | cons o post =>
        rw [PlaceOrders_tick_error k msg s s1 o post hne hv ht hd]
        exact (stageLoop_frame k msg msg.Orders _ [] s1).1.trans hfr
      | nil =>
        obtain ⟨resp, hr⟩ := PlaceOrders_succeeds k msg s s1 hne hv ht
          ((dropWhile_eq_nil_iff_all k msg msg.Orders).mp hd)
        exact absurd hr (h resp)

theorem PlaceOrders_ok_spec (k : Keeper) (msg : MsgPlaceOrders) (s s2 : State)
    (resp : MsgPlaceOrdersResponse) (h : PlaceOrders k msg s = (s2, Result.ok resp))
    (hK : s.nextOrderID msg.ContractAddr < uint64Size) :
    resp.OrderIds = (List.range' 0 msg.Orders.length).map
        (fun i => (s.nextOrderID msg.ContractAddr + i) % uint64Size) ∧
    s2.nextOrderID msg.ContractAddr
      = (s.nextOrderID msg.ContractAddr + msg.Orders.length) % uint64Size ∧
    ∀ p, s2.blockOrders msg.ContractAddr p
      = s.blockOrders msg.ContractAddr p
          ++ stagedEntries k msg (s.nextOrderID msg.ContractAddr) 0 msg.Orders p := by
  obtain ⟨hne, hv, ⟨s1, ht⟩, hall⟩ := PlaceOrders_ok_inv k msg s s2 resp h
  rw [PlaceOrders_staged k msg s s1 hne hv ht hall hK] at h
  simp only [Prod.mk.injEq, Result.ok.injEq] at h
  obtain ⟨hs, hresp⟩ := h
  subst hs
  subst hresp
  refine ⟨rfl, by simp [State.SetNextOrderID], ?_⟩
  intro p
  have hst := (stageLoop_state k msg (s.nextOrderID msg.ContractAddr) msg.Orders 0 [] s1).2.2.2 p
  simp only [Nat.add_zero, Nat.mod_eq_of_lt hK] at hst
  have hfr := (transferFunds_frame k msg s).2.1
  rw [ht] at hfr
  simp only at hfr
  simp only [State.SetNextOrderID]
  rw [hst, takeWhile_eq_self_of_all k msg msg.Orders hall, hfr]

theorem Dec.presentNonNeg_eq (d : Dec) :
    d.PresentNonNeg = !(d.IsNil || d.IsNegative) := by
  obtain ⟨i⟩ := d
  cases i with
  | none => simp [Dec.PresentNonNeg, Dec.IsNil, Dec.IsNegative]
  | some v =>
    by_cases hv : v < 0
    · have h0 : ¬ 0 ≤ v := by omega
      simp [Dec.PresentNonNeg, Dec.IsNil, Dec.IsNegative, hv, h0]
    · have h0 : 0 ≤ v := by omega
      simp [Dec.PresentNonNeg, Dec.IsNil, Dec.IsNegative, hv, h0]

theorem validateOrder_eq_firstFailingCheck (o : Order) :
    validateOrder o = firstFailingCheck o := by
  simp only [validateOrder, firstFailingCheck, orderChecks, List.findSome?,
    Dec.presentNonNeg_eq, ← length_zero_iff]
  by_cases h1 : (o.Quantity.IsNil || o.Quantity.IsNegative) = true
  · simp [h1]
  by_cases h2 : (o.Price.IsNil || o.Price.IsNegative) = true
  · simp [h1, h2]
  by_cases h3 : o.AssetDenom.length = 0
  · simp [h1, h2, h3]
  by_cases h4 : o.PriceDenom.length = 0
  · simp [h1, h2, h3, h4]
  by_cases h5 : (o.Nominal.IsNil || o.Nominal.IsNegative) = true <;>
  by_cases h6 : (o.TriggerPrice.IsNil || o.TriggerPrice.IsNegative) = true <;>
  cases hT : o.OrderType <;> simp [h1, h2, h3, h4, h5, h6]

theorem takeWhile_dropWhile_of_split (k : Keeper) (msg : MsgPlaceOrders)
    (pre : List Order) (o : Order) (post : List Order)
    (hpre : ∀ x ∈ pre, Configured k msg x = true) (ho : Configured k msg o = false) :
    (pre ++ o :: post).takeWhile (Configured k msg) = pre ∧
    (pre ++ o :: post).dropWhile (Configured k msg) = o :: post := by
  induction pre with
  | nil => simp [List.takeWhile, List.dropWhile, ho]
  | cons x rest ih =>
    have hx : Configured k msg x = true := hpre x (List.mem_cons_self _ _)
    obtain ⟨h1, h2⟩ := ih (fun y hy => hpre y (List.mem_cons_of_mem _ hy))
    simp [List.takeWhile, List.dropWhile, hx, h1, h2]

theorem stageLoop_other_key (k : Keeper) (msg : MsgPlaceOrders) (orders : List Order)
    (nextID : Nat) (ids : List Nat) (s : State) (p : String)
    (h : ∀ o ∈ orders, pairKey k msg o ≠ some p) :
    (stageLoop k msg orders nextID ids s).1.blockOrders msg.ContractAddr p
      = s.blockOrders msg.ContractAddr p := by
  induction orders generalizing nextID ids s with
  | nil => simp [stageLoop]
  | cons o rest ih =>
    have ho := h o (List.mem_cons_self _ _)
    unfold stageLoop
    cases hp : k.GetPriceTickSizeForPair msg.ContractAddr (lookupPair o) with
    | none => simp
    | some pt =>
      cases hq : k.GetQuantityTickSizeForPair msg.ContractAddr (lookupPair o) with
      | none => simp
      | some qt =>
        simp only []
        rw [ih _ _ _ (fun x hx => h x (List.mem_cons_of_mem _ hx))]
        simp only [pairKey, hp, hq, ne_eq, Option.some.injEq] at ho
        have ho2 : ¬ p = k.GetPairString
            { PriceDenom := o.PriceDenom, AssetDenom := o.AssetDenom,
              PriceTicksize := some pt, QuantityTicksize := some qt } := fun hEq => ho hEq.symm
        simp [State.AddBlockOrder, ho2]

theorem PlaceOrders_state_cases (k : Keeper) (msg : MsgPlaceOrders) (s : State) :
    (PlaceOrders k msg s).1 = s ∨
    (PlaceOrders k msg s).1 = (transferFunds k msg s).1 ∨
    ∃ nextID ids,
      (PlaceOrders k msg s).1 = (stageLoop k msg msg.Orders nextID ids (transferFunds k msg s).1).1 ∨
      ∃ n, (PlaceOrders k msg s).1
        = State.SetNextOrderID
            (stageLoop k msg msg.Orders nextID ids (transferFunds k msg s).1).1
            msg.ContractAddr n := by
  by_cases hne : msg.Orders = []
  · left; rw [PlaceOrders_empty k msg s hne]
  cases hv : validateOrders msg.Orders with
  | some e => left; rw [PlaceOrders_invalid k msg s e hv]
  | none =>
    have h0 : ¬ msg.Orders.length = 0 := fun h => hne (List.length_eq_zero.mp h)
    rcases ht : transferFunds k msg s with ⟨s1, r⟩
    cases r with
    | error e => right; left; rw [PlaceOrders_escrow_error k msg s s1 e hne hv ht]
    | panic cause => right; left; rw [PlaceOrders_escrow_panic k msg s s1 cause hne hv ht]
    | ok v =>
      right; right
      refine ⟨s1.GetNextOrderID msg.ContractAddr, [], ?_⟩
      simp only [PlaceOrders, h0, if_false, hv, ht]
      rcases hst : stageLoop k msg msg.Orders (s1.GetNextOrderID msg.ContractAddr) [] s1
        with ⟨s2, r2⟩
      cases r2 with
      | error e => left; rfl
      | panic cause => left; rfl
      | ok v2 => right; exact ⟨v2.1, rfl⟩

theorem PlaceOrders_frame (k : Keeper) (msg : MsgPlaceOrders) (s : State) :
    (∀ c, c ≠ msg.ContractAddr →
      (PlaceOrders k msg s).1.nextOrderID c = s.nextOrderID c ∧
      (PlaceOrders k msg s).1.depositInfo c = s.depositInfo c ∧
      ∀ p, (PlaceOrders k msg s).1.blockOrders c p = s.blockOrders c p) ∧
    ∀ p, (∀ o ∈ msg.Orders, pairKey k msg o ≠ some p) →
      (PlaceOrders k msg s).1.blockOrders msg.ContractAddr p
        = s.blockOrders msg.ContractAddr p := by
  obtain ⟨ht1, ht2, ht3⟩ := transferFunds_frame k msg s
  rcases PlaceOrders_state_cases k msg s with h | h | ⟨nextID, ids, h | ⟨n, h⟩⟩
  · rw [h]
    exact ⟨fun c _ => ⟨rfl, rfl, fun _ => rfl⟩, fun _ _ => rfl⟩
  · rw [h]
    exact ⟨fun c hc => ⟨by rw [ht1], ht3 c hc, fun p => by rw [ht2]⟩,
      fun p _ => by rw [ht2]⟩
  · rw [h]
    obtain ⟨hs1, hs2, hs3⟩ :=
      stageLoop_frame k msg msg.Orders nextID ids (transferFunds k msg s).1
    refine ⟨fun c hc => ⟨by rw [hs1, ht1], by rw [hs2]; exact ht3 c hc,
      fun p => by rw [hs3 c p hc, ht2]⟩, ?_⟩
    intro p hp
    rw [stageLoop_other_key k msg msg.Orders nextID ids _ p hp, ht2]
  · rw [h]
    obtain ⟨hs1, hs2, hs3⟩ :=
      stageLoop_frame k msg msg.Orders nextID ids (transferFunds k msg s).1
    refine ⟨fun c hc => ⟨by simp [State.SetNextOrderID, hc, hs1, ht1],
      by simp only [State.SetNextOrderID]; rw [hs2]; exact ht3 c hc,
      fun p => by simp only [State.SetNextOrderID]; rw [hs3 c p hc, ht2]⟩, ?_⟩
    intro p hp
    simp only [State.SetNextOrderID]
    rw [stageLoop_other_key k msg msg.Orders nextID ids _ p hp, ht2]

theorem anyNilAmount_eq_false_iff (funds : List Coin) :
    anyNilAmount funds = false ↔ ∀ f ∈ funds, f.Amount.IsNil = false := by
  induction funds with
  | nil => simp [anyNilAmount]
  | cons f rest ih =>
    cases hf : f.Amount.IsNil with
    | true => simp [anyNilAmount, hf]
    | false => simp [anyNilAmount, hf, ih]

theorem depositLoop_ok_iff (msg : MsgPlaceOrders) (funds : List Coin) (s : State) :
    (depositLoop msg funds s).2 = Result.ok () ↔
      ∀ f ∈ funds, f.Depositable = true ∧ f.FitsInt64 = true := by
  induction funds generalizing s with
  | nil => simp [depositLoop]
  | cons fund rest ih =>
    unfold depositLoop
    by_cases hg : (fund.Amount.IsNil || fund.IsNegative) = true
    · have hd : fund.Depositable = false := by simp [Coin.Depositable, hg]
      simp [hg, hd]
    · have hd : fund.Depositable = true := by simpa [Coin.Depositable] using hg
      cases h64 : fund.Amount.Int64 with
      | none => simp [hg, Coin.FitsInt64, h64]
      | some n => simp [hg, hd, Coin.FitsInt64, h64, ih]

theorem depositLoop_negative_error (msg : MsgPlaceOrders) (funds : List Coin) (s : State)
    (hbad : ∃ f ∈ funds, f.Depositable = false)
    (hfit : ∀ f ∈ funds.takeWhile Coin.Depositable, f.FitsInt64 = true) :
    (depositLoop msg funds s).2 = Result.error Err.depositNilOrNegative := by
  induction funds generalizing s with
  | nil => simp at hbad
  | cons fund rest ih =>
    unfold depositLoop
    by_cases hg : (fund.Amount.IsNil || fund.IsNegative) = true
    · simp [hg]
    · have hd : fund.Depositable = true := by simpa [Coin.Depositable] using hg
      simp only [List.takeWhile, hd, List.mem_cons, forall_eq_or_imp] at hfit
      obtain ⟨hfit0, hfitRest⟩ := hfit
      cases h64 : fund.Amount.Int64 with
      | none => simp [Coin.FitsInt64, h64] at hfit0
      | some n =>
        simp only [hg]
        apply ih
        · obtain ⟨f, hf, hfd⟩ := hbad
          rcases List.mem_cons.mp hf with rfl | hf
          · rw [hd] at hfd; exact absurd hfd (by simp)
          · exact ⟨f, hf, hfd⟩
        · exact hfitRest

theorem transferFunds_ok_iff (k : Keeper) (msg : MsgPlaceOrders) (s : State) :
    (transferFunds k msg s).2 = Result.ok () ↔
      EscrowChecksPass k msg ∧ ∀ f ∈ msg.Funds, f.FitsInt64 = true := by
  by_cases h0 : msg.Funds.length = 0
  · have hf : msg.Funds = [] := List.length_eq_zero.mp h0
    simp [transferFunds, h0, EscrowChecksPass, hf]
  have hf : msg.Funds ≠ [] := fun h => h0 (by simp [h])
  cases ha : k.AccAddressFromBech32 msg.ContractAddr with
  | error cause => simp [transferFunds, h0, ha, EscrowChecksPass, hf]
  | ok addr =>
    by_cases h1 : anyNilAmount msg.Funds = true
    · have hnil : ¬ ∀ f ∈ msg.Funds, f.Amount.IsNil = false := by
        intro hall
        rw [(anyNilAmount_eq_false_iff msg.Funds).mpr hall] at h1
        exact absurd h1 (by simp)
      simp only [transferFunds, h0, if_false, ha, h1, if_true, EscrowChecksPass, hf, false_or]
      constructor
      · intro h; simp at h
      · rintro ⟨⟨a, _, hall, _⟩, _⟩
        exact absurd hall hnil
    have hnil : ∀ f ∈ msg.Funds, f.Amount.IsNil = false :=
      (anyNilAmount_eq_false_iff msg.Funds).mp (by simpa using h1)
    cases hs : k.IsSendEnabledCoins msg.Funds with
    | some cause => simp [transferFunds, h0, ha, h1, hs, EscrowChecksPass, hf]
    | none =>
      by_cases h2 : k.BlockedAddr addr = true
      · simp [transferFunds, h0, ha, h1, hs, h2, EscrowChecksPass, hf]
      · have hEq : transferFunds k msg s = depositLoop msg msg.Funds s := by
          simp [transferFunds, h0, ha, h1, hs, h2]
        have hb : k.BlockedAddr addr = false := by simpa using h2
        rw [hEq, depositLoop_ok_iff]
        constructor
        · intro h
          refine ⟨Or.inr ⟨addr, ha, hnil, hs, hb, ?_⟩, fun f hfm => (h f hfm).2⟩
          intro f hfm
          have := (h f hfm).1
          simpa [Coin.Depositable, hnil f hfm] using this
        · rintro ⟨hchecks, hfit⟩ f hfm
          rcases hchecks with hempty | ⟨a, _, _, _, _, hneg⟩
          · exact absurd hempty hf
          · exact ⟨by simp [Coin.Depositable, hnil f hfm, hneg f hfm], hfit f hfm⟩

theorem PlaceOrders_ok_iff (k : Keeper) (msg : MsgPlaceOrders) (s : State) :
    (∃ resp, (PlaceOrders k msg s).2 = Result.ok resp) ↔
      (msg.Orders ≠ [] ∧ (∀ o ∈ msg.Orders, validateOrder o = none) ∧
        EscrowChecksPass k msg ∧ (∀ f ∈ msg.Funds, f.FitsInt64 = true) ∧
        ∀ o ∈ msg.Orders, Configured k msg o = true) := by
  constructor
  · rintro ⟨resp, hr⟩
    have h : PlaceOrders k msg s = ((PlaceOrders k msg s).1, Result.ok resp) :=
      Prod.ext rfl hr
    obtain ⟨hne, hv, ⟨s1, ht⟩, hall⟩ := PlaceOrders_ok_inv k msg s _ resp h
    have ht2 : (transferFunds k msg s).2 = Result.ok () := by rw [ht]
    obtain ⟨hchecks, hfit⟩ := (transferFunds_ok_iff k msg s).mp ht2
    exact ⟨hne, (validateOrders_eq_none_iff msg.Orders).mp hv, hchecks, hfit, hall⟩
  · rintro ⟨hne, hvalid, hchecks, hfit, hall⟩
    have ht2 := (transferFunds_ok_iff k msg s).mpr ⟨hchecks, hfit⟩
    exact PlaceOrders_succeeds k msg s (transferFunds k msg s).1 hne
      ((validateOrders_eq_none_iff msg.Orders).mpr hvalid) (Prod.ext rfl ht2) hall

theorem validateOrders_of_split (pre : List Order) (o : Order) (post : List Order) (e : Err)
    (hpre : ∀ x ∈ pre, validateOrder x = none) (ho : validateOrder o = some e) :
    validateOrders (pre ++ o :: post) = some e := by
  induction pre with
  | nil => simp [validateOrders, ho]
  | cons x rest ih =>
    have hx : validateOrder x = none := hpre x (List.mem_cons_self _ _)
    simp only [List.cons_append, validateOrders, hx]
    exact ih (fun y hy => hpre y (List.mem_cons_of_mem _ hy))

theorem PlaceOrders_tick_error_of_split (k : Keeper) (msg : MsgPlaceOrders) (s : State)
    (pre : List Order) (o : Order) (post : List Order)
    (hvalid : ∀ x ∈ msg.Orders, validateOrder x = none)
    (hesc : (transferFunds k msg s).2 = Result.ok ())
    (hsplit : msg.Orders = pre ++ o :: post)
    (hpre : ∀ x ∈ pre, Configured k msg x = true)
    (ho : Configured k msg o = false) :
    PlaceOrders k msg s
      = ((stageLoop k msg msg.Orders (s.nextOrderID msg.ContractAddr) []
            (transferFunds k msg s).1).1,
          Result.error (tickError k msg o)) ∧
    msg.Orders.takeWhile (Configured k msg) = pre := by
  have hne : msg.Orders ≠ [] := by rw [hsplit]; simp
  have hv := (validateOrders_eq_none_iff msg.Orders).mpr hvalid
  have ht : transferFunds k msg s = ((transferFunds k msg s).1, Result.ok ()) :=
    Prod.ext rfl hesc
  obtain ⟨htake, hdrop⟩ := takeWhile_dropWhile_of_split k msg pre o post hpre ho
  rw [← hsplit] at htake hdrop
  exact ⟨PlaceOrders_tick_error k msg s _ o post hne hv ht hdrop, htake⟩

/-! ## The claims -/

/-- C1: `validateOrder` returns no error exactly when the quantity and the price are present and
at least zero, both denominations are non-empty, the nominal is present and at least zero if the
order type is FOKMARKETBYVALUE, and the trigger price is present and at least zero if the order
type is STOPLIMIT or STOPLOSS. -/
theorem C1_validateOrder_accepts_iff (o : Order) :
    validateOrder o = none ↔
      (o.Quantity.NonNegative ∧ o.Price.NonNegative ∧ o.AssetDenom ≠ "" ∧ o.PriceDenom ≠ "" ∧
        (o.OrderType = OrderType.FOKMARKETBYVALUE → o.Nominal.NonNegative) ∧
        (o.OrderType = OrderType.STOPLIMIT ∨ o.OrderType = OrderType.STOPLOSS →
          o.TriggerPrice.NonNegative)) := by
  simp only [Dec.nonNegative_iff, Ne, ← length_zero_iff, validateOrder]
  by_cases h1 : (o.Quantity.IsNil || o.Quantity.IsNegative) = true
  · simp [h1]
  by_cases h2 : (o.Price.IsNil || o.Price.IsNegative) = true
  · simp [h1, h2]
  by_cases h3 : o.AssetDenom.length = 0
  · simp [h1, h2, h3]
  by_cases h4 : o.PriceDenom.length = 0
  · simp [h1, h2, h3, h4]
  simp only [h1, h2, h3, h4]
  cases hT : o.OrderType <;> simp

/-- C2, as amended: for a non-empty batch of valid orders whose escrow succeeds and whose pairs
all have both tick sizes, submitted at counter `K` with `K + N` below `2 ^ 64`, `PlaceOrders`
returns the identifiers `K, K+1, ..., K+N-1` in submission order and persists `K + N`. -/
theorem C2_order_ids_sequential (k : Keeper) (msg : MsgPlaceOrders) (s : State)
    (hne : msg.Orders ≠ [])
    (hvalid : ∀ o ∈ msg.Orders, validateOrder o = none)
    (hesc : (transferFunds k msg s).2 = Result.ok ())
    (hticks : ∀ o ∈ msg.Orders, Configured k msg o = true)
    (hK : s.nextOrderID msg.ContractAddr + msg.Orders.length < uint64Size) :
    (PlaceOrders k msg s).2
      = Result.ok ⟨List.range' (s.nextOrderID msg.ContractAddr) msg.Orders.length⟩ ∧
    (PlaceOrders k msg s).1.nextOrderID msg.ContractAddr
      = s.nextOrderID msg.ContractAddr + msg.Orders.length := by
  have hv := (validateOrders_eq_none_iff msg.Orders).mpr hvalid
  have ht : transferFunds k msg s = ((transferFunds k msg s).1, Result.ok ()) :=
    Prod.ext rfl hesc
  have hK0 : s.nextOrderID msg.ContractAddr < uint64Size := by omega
  rw [PlaceOrders_staged k msg s _ hne hv ht hticks hK0]
  refine ⟨?_, ?_⟩
  · simp only
    rw [ids_no_wrap _ _ (by omega)]
  · simp only [State.SetNextOrderID, if_true]
    exact Nat.mod_eq_of_lt hK

/-- C2 at the counter 5 with the two-order batch: identifiers 5 and 6, counter 7. -/
theorem C2_order_ids_sequential_witness :
    (PlaceOrders exKeeper atomBatch (exState 5)).2 = Result.ok ⟨List.range' 5 2⟩ ∧
    (PlaceOrders exKeeper atomBatch (exState 5)).1.nextOrderID "sei1dex" = 5 + 2 :=
  C2_order_ids_sequential exKeeper atomBatch (exState 5) (by decide) (by decide) (by decide)
    (by decide) (by decide)

/-- C2 as stated fails at the counter `2 ^ 64 - 2`: the two-order batch meets every condition
of the claim and the counter persisted afterwards is 0, not `K + 2`. -/
theorem C2_counter_wraps :
    atomBatch.Orders.length = 2 ∧
    (∀ o ∈ atomBatch.Orders, validateOrder o = none) ∧
    (transferFunds exKeeper atomBatch (exState (2 ^ 64 - 2))).2 = Result.ok () ∧
    (∀ o ∈ atomBatch.Orders, Configured exKeeper atomBatch o = true) ∧
    (exState (2 ^ 64 - 2)).nextOrderID "sei1dex" = 2 ^ 64 - 2 ∧
    (PlaceOrders exKeeper atomBatch (exState (2 ^ 64 - 2))).1.nextOrderID "sei1dex" = 0 ∧
    (PlaceOrders exKeeper atomBatch (exState (2 ^ 64 - 2))).1.nextOrderID "sei1dex"
      ≠ (2 ^ 64 - 2) + 2 := by
  decide

/-- C3, as amended: when some order of the batch references a pair without a price or quantity
tick size, `PlaceOrders` does not succeed and the persisted counters are unchanged; when moreover
every order is valid and escrow succeeds, the error is the key-not-found error of the first such
order, and each staging set of the contract has gained exactly the orders that precede it (so
none when it is the first order of the batch). -/
theorem C3_missing_tick_size (k : Keeper) (msg : MsgPlaceOrders) (s : State)
    (hmiss : ∃ o ∈ msg.Orders, Configured k msg o = false) :
    (∀ resp, (PlaceOrders k msg s).2 ≠ Result.ok resp) ∧
    (PlaceOrders k msg s).1.nextOrderID = s.nextOrderID ∧
    ((∀ o ∈ msg.Orders, validateOrder o = none) →
      (transferFunds k msg s).2 = Result.ok () →
      s.nextOrderID msg.ContractAddr < uint64Size →
      ∃ pre o post, msg.Orders = pre ++ o :: post ∧
        (∀ x ∈ pre, Configured k msg x = true) ∧ Configured k msg o = false ∧
        (PlaceOrders k msg s).2 = Result.error (tickError k msg o) ∧
        ∀ p, (PlaceOrders k msg s).1.blockOrders msg.ContractAddr p
          = s.blockOrders msg.ContractAddr p
              ++ stagedEntries k msg (s.nextOrderID msg.ContractAddr) 0 pre p) := by
  have hfail : ∀ resp, (PlaceOrders k msg s).2 ≠ Result.ok resp := by
    intro resp hr
    have h : PlaceOrders k msg s = ((PlaceOrders k msg s).1, Result.ok resp) := Prod.ext rfl hr
    obtain ⟨o, ho, hc⟩ := hmiss
    have hall := (PlaceOrders_ok_inv k msg s _ resp h).2.2.2 o ho
    rw [hc] at hall
    exact absurd hall (by simp)
  refine ⟨hfail, PlaceOrders_counter_unchanged k msg s hfail, ?_⟩
  intro hvalid hesc hK
  obtain ⟨o, post, hd, hco, hsplit, hpre⟩ := dropWhile_head_of_exists k msg msg.Orders hmiss
  have hne : msg.Orders ≠ [] := by
    intro h0
    rw [h0] at hd
    simp at hd
  have hv := (validateOrders_eq_none_iff msg.Orders).mpr hvalid
  have ht : transferFunds k msg s = ((transferFunds k msg s).1, Result.ok ()) :=
    Prod.ext rfl hesc
  refine ⟨msg.Orders.takeWhile (Configured k msg), o, post, hsplit, hpre, hco, ?_, ?_⟩
  · rw [PlaceOrders_tick_error k msg s _ o post hne hv ht hd]
  · intro p
    rw [PlaceOrders_tick_error k msg s _ o post hne hv ht hd]
    have hst := (stageLoop_state k msg (s.nextOrderID msg.ContractAddr) msg.Orders 0 []
      (transferFunds k msg s).1).2.2.2 p
    simp only [Nat.add_zero, Nat.mod_eq_of_lt hK] at hst
    simp only
    rw [hst, (transferFunds_frame k msg s).2.1]

/-- C3 on the batch whose second order is on the unconfigured pair (USDC, OSMO). -/
theorem C3_missing_tick_size_witness :
    (∀ resp, (PlaceOrders exKeeper mixedBatch (exState 5)).2 ≠ Result.ok resp) ∧
    (PlaceOrders exKeeper mixedBatch (exState 5)).1.nextOrderID = (exState 5).nextOrderID ∧
    ∃ pre o post, mixedBatch.Orders = pre ++ o :: post ∧
      (∀ x ∈ pre, Configured exKeeper mixedBatch x = true) ∧
      Configured exKeeper mixedBatch o = false ∧
      (PlaceOrders exKeeper mixedBatch (exState 5)).2
        = Result.error (tickError exKeeper mixedBatch o) ∧
      ∀ p, (PlaceOrders exKeeper mixedBatch (exState 5)).1.blockOrders
            mixedBatch.ContractAddr p
        = (exState 5).blockOrders mixedBatch.ContractAddr p
            ++ stagedEntries exKeeper mixedBatch
                ((exState 5).nextOrderID mixedBatch.ContractAddr) 0 pre p :=
  have h := C3_missing_tick_size exKeeper mixedBatch (exState 5)
    ⟨exOrder "USDC" "OSMO" 1, by decide, by decide⟩
  ⟨h.1, h.2.1, h.2.2 (by decide) (by decide) (by decide)⟩

/-- C3 as stated fails on the batch whose second order is on an unconfigured pair: the call
ends with the key-not-found error, and the first order has been staged with identifier 5. -/
theorem C3_first_order_staged :
    (∃ o ∈ mixedBatch.Orders, Configured exKeeper mixedBatch o = false) ∧
    (∀ o ∈ mixedBatch.Orders, validateOrder o = none) ∧
    (PlaceOrders exKeeper mixedBatch (exState 5)).2
      = Result.error (Err.keyNotFoundPrice "USDC" "OSMO") ∧
    (exState 5).blockOrders "sei1dex" "USDC|ATOM" = [] ∧
    (PlaceOrders exKeeper mixedBatch (exState 5)).1.blockOrders "sei1dex" "USDC|ATOM"
      = [{ exOrder "USDC" "ATOM" 1 with
            Id := 5, Account := "sei1alice", ContractAddr := "sei1dex" }] := by
  decide

/-- C4, as amended: when `transferFunds` returns an error, no order has been staged, no counter
has been persisted and the ledgers of the other contracts are unchanged; the state is exactly as
before the call for every error except the negative-amount error of the deposit loop, and for
that error the ledger of the contract has gained exactly the records of the funds that precede
the first negative amount. -/
theorem C4_escrow_error_state (k : Keeper) (msg : MsgPlaceOrders) (s s1 : State) (e : Err)
    (h : transferFunds k msg s = (s1, Result.error e)) :
    s1.blockOrders = s.blockOrders ∧
    s1.nextOrderID = s.nextOrderID ∧
    (∀ c, c ≠ msg.ContractAddr → s1.depositInfo c = s.depositInfo c) ∧
    (e ≠ Err.depositNilOrNegative → s1 = s) ∧
    (e = Err.depositNilOrNegative →
      s1.depositInfo msg.ContractAddr
        = s.depositInfo msg.ContractAddr
            ++ (msg.Funds.takeWhile Coin.Depositable).map (depositEntry msg)) := by
  obtain ⟨h1, h2, h3⟩ := transferFunds_frame k msg s
  rw [h] at h1 h2 h3
  obtain ⟨h4, h5⟩ := transferFunds_error k msg s s1 e h
  exact ⟨h2, h1, h3, h4, h5⟩

/-- C4 on the funds 5 and -1: the negative-amount error, with the ledger extended by the
record of the fund that precedes the negative one, and nothing else changed. -/
theorem C4_escrow_error_state_witness :
    transferFunds exKeeper negativeFundBatch (exState 5)
      = ((transferFunds exKeeper negativeFundBatch (exState 5)).1,
          Result.error Err.depositNilOrNegative) ∧
    (transferFunds exKeeper negativeFundBatch (exState 5)).1.blockOrders
      = (exState 5).blockOrders ∧
    (transferFunds exKeeper negativeFundBatch (exState 5)).1.nextOrderID
      = (exState 5).nextOrderID ∧
    (transferFunds exKeeper negativeFundBatch (exState 5)).1.depositInfo
        negativeFundBatch.ContractAddr
      = (exState 5).depositInfo negativeFundBatch.ContractAddr
          ++ (negativeFundBatch.Funds.takeWhile Coin.Depositable).map
              (depositEntry negativeFundBatch) :=
  have h := C4_escrow_error_state exKeeper negativeFundBatch (exState 5)
    (transferFunds exKeeper negativeFundBatch (exState 5)).1 Err.depositNilOrNegative
    (Prod.ext rfl (by decide))
  ⟨Prod.ext rfl (by decide), h.1, h.2.1, h.2.2.2.2 rfl⟩

/-- C4 as stated fails when a negative amount follows a good one: `transferFunds` returns the
negative-amount error after the deposit record of the first fund has been appended. -/
theorem C4_deposit_before_negative :
    (transferFunds exKeeper negativeFundBatch (exState 5)).2
      = Result.error Err.depositNilOrNegative ∧
    (exState 5).depositInfo "sei1dex" = [] ∧
    (transferFunds exKeeper negativeFundBatch (exState 5)).1.depositInfo "sei1dex"
      = [{ Creator := "sei1alice", Denom := "uusdc", Amount := NewDec 5 }] := by
  decide

/-- C5: when the batch contains an order that `validateOrder` rejects, `PlaceOrders` returns the
error `validateOrder` gives for the first such order and the state is the state before the call:
nothing is staged, no deposit is recorded, no counter is persisted. -/
theorem C5_invalid_order_rejects_batch (k : Keeper) (msg : MsgPlaceOrders) (s : State)
    (h : ∃ o ∈ msg.Orders, validateOrder o ≠ none) :
    ∃ pre o post e, msg.Orders = pre ++ o :: post ∧
      (∀ x ∈ pre, validateOrder x = none) ∧ validateOrder o = some e ∧
      PlaceOrders k msg s = (s, Result.error e) := by
  cases hv : validateOrders msg.Orders with
  | none =>
    obtain ⟨o, ho, hbad⟩ := h
    exact absurd ((validateOrders_eq_none_iff msg.Orders).mp hv o ho) hbad
  | some e =>
    obtain ⟨pre, o, post, hsplit, hpre, ho⟩ := validateOrders_eq_some msg.Orders e hv
    exact ⟨pre, o, post, e, hsplit, hpre, ho, PlaceOrders_invalid k msg s e hv⟩

/-- C5 on a batch whose second order has a negative quantity. -/
theorem C5_invalid_order_rejects_batch_witness :
    ∃ pre o post e, invalidOrderBatch.Orders = pre ++ o :: post ∧
      (∀ x ∈ pre, validateOrder x = none) ∧ validateOrder o = some e ∧
      PlaceOrders exKeeper invalidOrderBatch (exState 5) = (exState 5, Result.error e) :=
  C5_invalid_order_rejects_batch exKeeper invalidOrderBatch (exState 5)
    ⟨exOrder "USDC" "ATOM" (-1), by decide, by decide⟩

/-- C6, as amended: for a batch with a non-empty funds list whose contract address is on the
block-list, `PlaceOrders` returns an error and leaves the state as it was, so no order is staged;
the error is the unauthorized error naming the contract when the batch is non-empty, every order
is valid, no amount is nil and the coins are send-enabled. -/
theorem C6_blocked_recipient (k : Keeper) (msg : MsgPlaceOrders) (s : State)
    (addr : AccAddress)
    (hf : msg.Funds ≠ [])
    (ha : k.AccAddressFromBech32 msg.ContractAddr = Except.ok addr)
    (hb : k.BlockedAddr addr = true) :
    (∃ e, PlaceOrders k msg s = (s, Result.error e)) ∧
    (msg.Orders ≠ [] → (∀ o ∈ msg.Orders, validateOrder o = none) →
      anyNilAmount msg.Funds = false → k.IsSendEnabledCoins msg.Funds = none →
      PlaceOrders k msg s = (s, Result.error (Err.unauthorized (k.AddrString addr)))) := by
  have h0 : ¬ msg.Funds.length = 0 := fun h => hf (List.length_eq_zero.mp h)
  have hesc : ∃ e, transferFunds k msg s = (s, Result.error e) ∧
      (anyNilAmount msg.Funds = false → k.IsSendEnabledCoins msg.Funds = none →
        e = Err.unauthorized (k.AddrString addr)) := by
    by_cases h1 : anyNilAmount msg.Funds = true
    · exact ⟨Err.depositNil, by simp [transferFunds, h0, ha, h1], by simp [h1]⟩
    cases hs : k.IsSendEnabledCoins msg.Funds with
    | some cause =>
      exact ⟨Err.transferDisabled cause, by simp [transferFunds, h0, ha, h1, hs], by simp⟩
    | none =>
      exact ⟨Err.unauthorized (k.AddrString addr),
        by simp [transferFunds, h0, ha, h1, hs, hb], fun _ _ => rfl⟩
  obtain ⟨e, ht, he⟩ := hesc
  have hany : ∃ e, PlaceOrders k msg s = (s, Result.error e) := by
    by_cases hne : msg.Orders = []
    · exact ⟨_, PlaceOrders_empty k msg s hne⟩
    cases hv : validateOrders msg.Orders with
    | some e1 => exact ⟨_, PlaceOrders_invalid k msg s e1 hv⟩
    | none => exact ⟨_, PlaceOrders_escrow_error k msg s s e hne hv ht⟩
  refine ⟨hany, ?_⟩
  intro hne hvalid hnil hsend
  have hv := (validateOrders_eq_none_iff msg.Orders).mpr hvalid
  rw [PlaceOrders_escrow_error k msg s s e hne hv ht, he hnil hsend]

/-- C6 on a valid order with a send-enabled fund for the blocked contract. -/
theorem C6_blocked_recipient_witness :
    (∃ e, PlaceOrders exKeeper blockedBatch (exState 5) = (exState 5, Result.error e)) ∧
    PlaceOrders exKeeper blockedBatch (exState 5)
      = (exState 5, Result.error (Err.unauthorized "sei1blocked")) :=
  have h := C6_blocked_recipient exKeeper blockedBatch (exState 5) [2] (by decide) rfl
    (by decide)
  ⟨h.1, h.2 (by decide) (by decide) (by decide) (by decide)⟩

/-- C6 as stated fails when the attached coin is not send-enabled: the contract is blocked, the
funds list is non-empty and the order is valid, and the error returned is the bank keeper's
transfer-disabled error, not the unauthorized error. -/
theorem C6_transfer_disabled_first :
    blockedLockedBatch.Funds ≠ [] ∧
    exKeeper.AccAddressFromBech32 blockedLockedBatch.ContractAddr = Except.ok [2] ∧
    exKeeper.BlockedAddr [2] = true ∧
    (∀ o ∈ blockedLockedBatch.Orders, validateOrder o = none) ∧
    (PlaceOrders exKeeper blockedLockedBatch (exState 5)).2
      = Result.error (Err.transferDisabled "ulocked transfers are currently disabled") ∧
    (PlaceOrders exKeeper blockedLockedBatch (exState 5)).2
      ≠ Result.error (Err.unauthorized (exKeeper.AddrString [2])) :=
  ⟨by decide, rfl, by decide, by decide, by decide, by decide⟩

/-- C7: with an empty funds list `transferFunds` returns success and the state it was given,
whatever the keeper says about the address, the block-list and send-enabledness. -/
theorem C7_no_funds_no_escrow (k : Keeper) (msg : MsgPlaceOrders) (s : State)
    (h : msg.Funds = []) : transferFunds k msg s = (s, Result.ok ()) := by
  simp [transferFunds, h]

/-- C7 on a batch without funds whose contract address does not even decode. -/
theorem C7_no_funds_no_escrow_witness :
    noFundsBatch.Funds = [] ∧
    transferFunds exKeeper noFundsBatch (exState 5) = (exState 5, Result.ok ()) :=
  ⟨rfl, C7_no_funds_no_escrow exKeeper noFundsBatch (exState 5) rfl⟩

/-- C8: when `transferFunds` succeeds, the deposit ledger of the contract is the ledger before
followed by one record per fund, in the order of the funds list; every fund has a present,
non-negative amount `v`, and its record has the submitter as creator, the denomination of the
fund and the decimal `NewDec v` as amount. -/
theorem C8_deposit_records (k : Keeper) (msg : MsgPlaceOrders) (s s1 : State)
    (h : transferFunds k msg s = (s1, Result.ok ())) :
    s1.depositInfo msg.ContractAddr
      = s.depositInfo msg.ContractAddr ++ msg.Funds.map (depositEntry msg) ∧
    ∀ f ∈ msg.Funds, ∃ v : Int, f.Amount.i = some v ∧ 0 ≤ v ∧
      depositEntry msg f = { Creator := msg.Creator, Denom := f.Denom, Amount := NewDec v } := by
  have hl := transferFunds_ok k msg s s1 h
  refine ⟨depositLoop_ok msg msg.Funds s s1 hl, ?_⟩
  intro f hf
  obtain ⟨hd, _⟩ := depositLoop_ok_amounts msg msg.Funds s s1 hl f hf
  obtain ⟨v, hv, hpos⟩ := depositable_amount f hd
  exact ⟨v, hv, hpos, by simp [depositEntry, hv]⟩

/-- C8 on the funds 5 uusdc and 0 uatom: two records, in that order. -/
theorem C8_deposit_records_witness :
    (transferFunds exKeeper twoFundsBatch (exState 5)).1.depositInfo twoFundsBatch.ContractAddr
      = (exState 5).depositInfo twoFundsBatch.ContractAddr
          ++ twoFundsBatch.Funds.map (depositEntry twoFundsBatch) ∧
    ∀ f ∈ twoFundsBatch.Funds, ∃ v : Int, f.Amount.i = some v ∧ 0 ≤ v ∧
      depositEntry twoFundsBatch f
        = { Creator := twoFundsBatch.Creator, Denom := f.Denom, Amount := NewDec v } :=
  C8_deposit_records exKeeper twoFundsBatch (exState 5)
    (transferFunds exKeeper twoFundsBatch (exState 5)).1 (Prod.ext rfl (by decide))

/-- C9, as amended: when `PlaceOrders` succeeds on `N` orders at counter `K` with `K + N` at
most `2 ^ 64`, each staging set of the contract is its previous content followed by exactly the
submitted orders whose tick-size-augmented pair maps to its key, in submission order, the order
at index `i` carrying `Id = K + i`, the submitter as account and the contract address of the
batch, with every other field as submitted. -/
theorem C9_staged_orders (k : Keeper) (msg : MsgPlaceOrders) (s s2 : State)
    (resp : MsgPlaceOrdersResponse)
    (h : PlaceOrders k msg s = (s2, Result.ok resp))
    (hK : s.nextOrderID msg.ContractAddr + msg.Orders.length ≤ uint64Size) :
    ∀ p, s2.blockOrders msg.ContractAddr p
      = s.blockOrders msg.ContractAddr p
          ++ ((msg.Orders.enum.filter (fun io => decide (pairKey k msg io.2 = some p))).map
              (fun io =>
                { io.2 with Id := s.nextOrderID msg.ContractAddr + io.1,
                            Account := msg.Creator, ContractAddr := msg.ContractAddr })) := by
  intro p
  have hne := (PlaceOrders_ok_inv k msg s s2 resp h).1
  have hlen : 0 < msg.Orders.length := List.length_pos.mpr hne
  have hK0 : s.nextOrderID msg.ContractAddr < uint64Size := by omega
  rw [(PlaceOrders_ok_spec k msg s s2 resp h hK0).2.2 p,
    stagedEntries_no_wrap k msg _ msg.Orders p hK]
  rfl

/-- C9 on two orders on (ATOM, USDC) with ticks (0.01, 0.1) at counter 5: the staged entries
carry the identifiers 5 and 6. -/
theorem C9_staged_orders_witness :
    (exKeeper.GetPriceTickSizeForPair "sei1dex" (lookupPair (exOrder "USDC" "ATOM" 1))
      = some ⟨some (10 ^ 16)⟩) ∧
    (exKeeper.GetQuantityTickSizeForPair "sei1dex" (lookupPair (exOrder "USDC" "ATOM" 1))
      = some ⟨some (10 ^ 17)⟩) ∧
    (PlaceOrders exKeeper atomBatch (exState 5)).2 = Result.ok ⟨[5, 6]⟩ ∧
    (PlaceOrders exKeeper atomBatch (exState 5)).1.blockOrders "sei1dex" "USDC|ATOM"
      = [{ exOrder "USDC" "ATOM" 1 with
            Id := 5, Account := "sei1alice", ContractAddr := "sei1dex" },
         { exOrder "USDC" "ATOM" 3 with
            Id := 6, Account := "sei1alice", ContractAddr := "sei1dex" }] :=
  ⟨by decide, by decide, by decide,
    (C9_staged_orders exKeeper atomBatch (exState 5)
      (PlaceOrders exKeeper atomBatch (exState 5)).1 ⟨[5, 6]⟩
      (Prod.ext rfl (by decide)) (by decide) "USDC|ATOM").trans (by decide)⟩

/-- C9 as stated fails at the counter `2 ^ 64 - 1`: the call succeeds and the second order is
staged with identifier 0, not `K + 1`. -/
theorem C9_staged_id_wraps :
    (exState (2 ^ 64 - 1)).nextOrderID "sei1dex" = 2 ^ 64 - 1 ∧
    (PlaceOrders exKeeper atomBatch (exState (2 ^ 64 - 1))).2
      = Result.ok ⟨[2 ^ 64 - 1, 0]⟩ ∧
    (PlaceOrders exKeeper atomBatch (exState (2 ^ 64 - 1))).1.blockOrders "sei1dex" "USDC|ATOM"
      = [{ exOrder "USDC" "ATOM" 1 with
            Id := 2 ^ 64 - 1, Account := "sei1alice", ContractAddr := "sei1dex" },
         { exOrder "USDC" "ATOM" 3 with
            Id := 0, Account := "sei1alice", ContractAddr := "sei1dex" }] ∧
    (0 : Nat) ≠ (2 ^ 64 - 1) + 1 := by
  decide

/-- C10, as amended: for every successful `PlaceOrders` call on `N` orders at counter `K` with
`K + N` below `2 ^ 64`, the persisted counter afterwards is strictly greater than `K`, and every
identifier returned is at least `K` and below the counter afterwards. -/
theorem C10_counter_increases (k : Keeper) (msg : MsgPlaceOrders) (s s2 : State)
    (resp : MsgPlaceOrdersResponse)
    (h : PlaceOrders k msg s = (s2, Result.ok resp))
    (hK : s.nextOrderID msg.ContractAddr + msg.Orders.length < uint64Size) :
    s.nextOrderID msg.ContractAddr < s2.nextOrderID msg.ContractAddr ∧
    ∀ id ∈ resp.OrderIds,
      s.nextOrderID msg.ContractAddr ≤ id ∧ id < s2.nextOrderID msg.ContractAddr := by
  have hne := (PlaceOrders_ok_inv k msg s s2 resp h).1
  have hlen : 0 < msg.Orders.length := List.length_pos.mpr hne
  have hK0 : s.nextOrderID msg.ContractAddr < uint64Size := by omega
  obtain ⟨hids, hctr, _⟩ := PlaceOrders_ok_spec k msg s s2 resp h hK0
  rw [Nat.mod_eq_of_lt hK] at hctr
  rw [ids_no_wrap _ _ (by omega)] at hids
  refine ⟨by omega, ?_⟩
  intro id hid
  rw [hids, List.mem_range'_1] at hid
  omega

/-- C10 on the two-order batch at counter 5: the counter moves to 7, past the ids 5 and 6. -/
theorem C10_counter_increases_witness :
    (exState 5).nextOrderID atomBatch.ContractAddr
      < (PlaceOrders exKeeper atomBatch (exState 5)).1.nextOrderID atomBatch.ContractAddr ∧
    ∀ id ∈ [5, 6],
      (exState 5).nextOrderID atomBatch.ContractAddr ≤ id ∧
      id < (PlaceOrders exKeeper atomBatch (exState 5)).1.nextOrderID atomBatch.ContractAddr :=
  C10_counter_increases exKeeper atomBatch (exState 5)
    (PlaceOrders exKeeper atomBatch (exState 5)).1 ⟨[5, 6]⟩ (Prod.ext rfl (by decide))
    (by decide)

/-- C10 as stated fails at the counter `2 ^ 64 - 1`: the one-order batch succeeds, returns the
identifier `2 ^ 64 - 1`, and the counter persisted afterwards is 0, which is neither greater
than the counter before nor above the identifier returned. -/
theorem C10_counter_wraps :
    (exState (2 ^ 64 - 1)).nextOrderID "sei1dex" = 2 ^ 64 - 1 ∧
    (PlaceOrders exKeeper singleBatch (exState (2 ^ 64 - 1))).2
      = Result.ok ⟨[2 ^ 64 - 1]⟩ ∧
    (PlaceOrders exKeeper singleBatch (exState (2 ^ 64 - 1))).1.nextOrderID "sei1dex" = 0 ∧
    ¬ ((exState (2 ^ 64 - 1)).nextOrderID "sei1dex"
        < (PlaceOrders exKeeper singleBatch (exState (2 ^ 64 - 1))).1.nextOrderID "sei1dex") := by
  decide

/-- C11: whenever `PlaceOrders` returns an error, whatever its cause, the persisted
next-order-id counters, that of the contract included, are as before the call. -/
theorem C11_error_keeps_counter (k : Keeper) (msg : MsgPlaceOrders) (s : State) (e : Err)
    (h : (PlaceOrders k msg s).2 = Result.error e) :
    (PlaceOrders k msg s).1.nextOrderID = s.nextOrderID ∧
    (PlaceOrders k msg s).1.nextOrderID msg.ContractAddr = s.nextOrderID msg.ContractAddr := by
  have hfail : ∀ resp, (PlaceOrders k msg s).2 ≠ Result.ok resp := by
    intro resp hr
    rw [h] at hr
    exact absurd hr (by simp)
  have hc := PlaceOrders_counter_unchanged k msg s hfail
  exact ⟨hc, by rw [hc]⟩

/-- C11 on a batch whose third order is on an unconfigured pair: two orders are staged before
the error and the counter stays at 5. -/
theorem C11_error_keeps_counter_witness :
    (PlaceOrders exKeeper thirdUnconfiguredBatch (exState 5)).2
      = Result.error (Err.keyNotFoundPrice "USDC" "OSMO") ∧
    (PlaceOrders exKeeper thirdUnconfiguredBatch (exState 5)).1.nextOrderID
        thirdUnconfiguredBatch.ContractAddr
      = (exState 5).nextOrderID thirdUnconfiguredBatch.ContractAddr :=
  ⟨by decide,
    (C11_error_keeps_counter exKeeper thirdUnconfiguredBatch (exState 5)
      (Err.keyNotFoundPrice "USDC" "OSMO") (by decide)).2⟩

/-- C12: `validateOrder` reports the error of the first failing check in the order quantity,
price, asset denomination, price denomination, nominal, trigger price; so a bad quantity gives
the quantity error whatever the other fields are, and a bad price with a good quantity gives the
price error whatever the other fields are. -/
theorem C12_first_failing_check (o : Order) :
    validateOrder o = firstFailingCheck o ∧
    (o.Quantity.PresentNonNeg = false →
      validateOrder o = some (Err.invalidQuantity o.Quantity)) ∧
    (o.Quantity.PresentNonNeg = true → o.Price.PresentNonNeg = false →
      validateOrder o = some (Err.invalidPrice o.Price)) := by
  refine ⟨validateOrder_eq_firstFailingCheck o, ?_, ?_⟩
  · intro hq
    rw [Dec.presentNonNeg_eq] at hq
    have hq2 : (o.Quantity.IsNil || o.Quantity.IsNegative) = true := by
      cases h : (o.Quantity.IsNil || o.Quantity.IsNegative) with
      | true => rfl
      | false => rw [h] at hq; exact absurd hq (by simp)
    simp [validateOrder, hq2]
  · intro hq hp
    rw [Dec.presentNonNeg_eq] at hq hp
    have hq2 : (o.Quantity.IsNil || o.Quantity.IsNegative) = false := by
      cases h : (o.Quantity.IsNil || o.Quantity.IsNegative) with
      | false => rfl
      | true => rw [h] at hq; exact absurd hq (by simp)
    have hp2 : (o.Price.IsNil || o.Price.IsNegative) = true := by
      cases h : (o.Price.IsNil || o.Price.IsNegative) with
      | true => rfl
      | false => rw [h] at hp; exact absurd hp (by simp)
    simp [validateOrder, hq2, hp2]

/-- C12 on the two orders of the claim: a negative quantity with an empty asset denomination
gives the quantity error, a nil price with an empty price denomination the price error. -/
theorem C12_first_failing_check_witness :
    validateOrder negativeQuantityNoAsset = some (Err.invalidQuantity (NewDec (-1))) ∧
    negativeQuantityNoAsset.AssetDenom = "" ∧
    validateOrder nilPriceNoPriceDenom = some (Err.invalidPrice ⟨none⟩) ∧
    nilPriceNoPriceDenom.PriceDenom = "" :=
  ⟨(C12_first_failing_check negativeQuantityNoAsset).2.1 (by decide), by decide,
    (C12_first_failing_check nilPriceNoPriceDenom).2.2 (by decide) (by decide), by decide⟩

/-- C13, as amended: a funds list that contains a nil or negative amount never passes the
escrow step. With a well-formed contract address, a nil amount gives the error
`deposit amount cannot be nil` whatever the bank says about send-enabledness and the block-list;
without a nil amount, the negative amount gives `fund deposits cannot be nil or negative` when
the coins are send-enabled, the contract is not blocked and the amounts before the first
negative one fit an `int64`. -/
theorem C13_invalid_deposit (k : Keeper) (msg : MsgPlaceOrders) (s : State)
    (hbad : ∃ f ∈ msg.Funds, f.Amount.IsNil = true ∨ f.IsNegative = true) :
    (transferFunds k msg s).2 ≠ Result.ok () ∧
    (∀ addr, k.AccAddressFromBech32 msg.ContractAddr = Except.ok addr →
      (∃ f ∈ msg.Funds, f.Amount.IsNil = true) →
      (transferFunds k msg s).2 = Result.error Err.depositNil) ∧
    (∀ addr, k.AccAddressFromBech32 msg.ContractAddr = Except.ok addr →
      (∀ f ∈ msg.Funds, f.Amount.IsNil = false) →
      k.IsSendEnabledCoins msg.Funds = none →
      k.BlockedAddr addr = false →
      (∀ f ∈ msg.Funds.takeWhile Coin.Depositable, f.FitsInt64 = true) →
      (transferFunds k msg s).2 = Result.error Err.depositNilOrNegative) := by
  obtain ⟨f, hfm, hf⟩ := hbad
  have hne : msg.Funds ≠ [] := fun h => by rw [h] at hfm; simp at hfm
  have h0 : ¬ msg.Funds.length = 0 := fun h => hne (List.length_eq_zero.mp h)
  have hnd : f.Depositable = false := by
    rcases hf with hf | hf <;> simp [Coin.Depositable, hf]
  refine ⟨?_, ?_, ?_⟩
  · intro hok
    obtain ⟨hchecks, _⟩ := (transferFunds_ok_iff k msg s).mp hok
    rcases hchecks with hempty | ⟨a, _, hnil, _, _, hneg⟩
    · exact hne hempty
    · rcases hf with hf | hf
      · rw [hnil f hfm] at hf; exact absurd hf (by simp)
      · rw [hneg f hfm] at hf; exact absurd hf (by simp)
  · intro addr ha hnil
    have h1 : anyNilAmount msg.Funds = true := by
      cases h : anyNilAmount msg.Funds with
      | true => rfl
      | false =>
        obtain ⟨g, hgm, hg⟩ := hnil
        rw [(anyNilAmount_eq_false_iff msg.Funds).mp h g hgm] at hg
        exact absurd hg (by simp)
    simp [transferFunds, h0, ha, h1]
  · intro addr ha hnil hs hb hfit
    have h1 : anyNilAmount msg.Funds = false := (anyNilAmount_eq_false_iff msg.Funds).mpr hnil
    have hEq : transferFunds k msg s = depositLoop msg msg.Funds s := by
      simp [transferFunds, h0, ha, h1, hs, hb]
    rw [hEq]
    exact depositLoop_negative_error msg msg.Funds s ⟨f, hfm, hnd⟩ hfit

/-- C13 on a nil amount for the blocked contract in a denomination that is not send-enabled
(the nil-amount error), and on the funds 5 and -1 for an unblocked contract (the
negative-amount error). -/
theorem C13_invalid_deposit_witness :
    (transferFunds exKeeper nilFundBatch (exState 5)).2 = Result.error Err.depositNil ∧
    (transferFunds exKeeper negativeFundBatch (exState 5)).2
      = Result.error Err.depositNilOrNegative :=
  ⟨(C13_invalid_deposit exKeeper nilFundBatch (exState 5)
      ⟨⟨"ulocked", ⟨none⟩⟩, by decide, by decide⟩).2.1 [2] rfl
      ⟨⟨"ulocked", ⟨none⟩⟩, by decide, by decide⟩,
   (C13_invalid_deposit exKeeper negativeFundBatch (exState 5)
      ⟨⟨"uusdc", ⟨some (-1)⟩⟩, by decide, by decide⟩).2.2 [1] rfl
      (by decide) (by decide) (by decide) (by decide)⟩

/-- C13 as stated fails for a negative amount sent to a blocked contract: the funds list is
non-empty and holds a negative amount, and the escrow step returns the unauthorized error, not
an invalid-deposit error. -/
theorem C13_blocked_before_negative :
    negativeBlockedBatch.Funds ≠ [] ∧
    (∃ f ∈ negativeBlockedBatch.Funds, f.IsNegative = true) ∧
    (transferFunds exKeeper negativeBlockedBatch (exState 5)).2
      = Result.error (Err.unauthorized "sei1blocked") ∧
    (transferFunds exKeeper negativeBlockedBatch (exState 5)).2
      ≠ Result.error Err.depositNil ∧
    (transferFunds exKeeper negativeBlockedBatch (exState 5)).2
      ≠ Result.error Err.depositNilOrNegative := by
  decide

/-- C14: `validateOrder` takes the order alone, and two orders that agree on quantity, price,
both denominations, order type, nominal and trigger price get the same verdict; in particular
the order as decorated by `PlaceOrders` gets the verdict of the order as submitted. -/
theorem C14_validateOrder_pure (o1 o2 : Order)
    (hQ : o1.Quantity = o2.Quantity) (hP : o1.Price = o2.Price)
    (hA : o1.AssetDenom = o2.AssetDenom) (hD : o1.PriceDenom = o2.PriceDenom)
    (hT : o1.OrderType = o2.OrderType) (hN : o1.Nominal = o2.Nominal)
    (hR : o1.TriggerPrice = o2.TriggerPrice) :
    validateOrder o1 = validateOrder o2 ∧
    ∀ (msg : MsgPlaceOrders) (id : Nat),
      validateOrder (decorate msg id o1) = validateOrder o2 := by
  refine ⟨?_, ?_⟩
  · simp only [validateOrder, hQ, hP, hA, hD, hT, hN, hR]
  · intro msg id
    simp only [validateOrder, decorate, hQ, hP, hA, hD, hT, hN, hR]

/-- C14 on an order and its decorated copy with the opposite direction. -/
theorem C14_validateOrder_pure_witness :
    validateOrder (exOrder "USDC" "ATOM" 1) = validateOrder decoratedShortOrder ∧
    ∀ (msg : MsgPlaceOrders) (id : Nat),
      validateOrder (decorate msg id (exOrder "USDC" "ATOM" 1))
        = validateOrder decoratedShortOrder :=
  C14_validateOrder_pure (exOrder "USDC" "ATOM" 1) decoratedShortOrder rfl rfl rfl rfl rfl
    rfl rfl

/-- C15: the code departs from the claim on a fund of amount `2 ^ 63`. The batch is non-empty,
its order is valid, every escrow check the claim lists passes (the address decodes, no amount is
nil, the coin is send-enabled, the contract is not blocked, no amount is negative) and both tick
sizes are found, yet `PlaceOrders` does not return success: it panics in `Amount.Int64()`. -/
theorem C15_success_conditions_panic :
    bigFundBatch.Orders ≠ [] ∧
    (∀ o ∈ bigFundBatch.Orders, validateOrder o = none) ∧
    EscrowChecksPass exKeeper bigFundBatch ∧
    (∀ o ∈ bigFundBatch.Orders, Configured exKeeper bigFundBatch o = true) ∧
    (PlaceOrders exKeeper bigFundBatch (exState 5)).2 = Result.panic "Int64() out of bound" ∧
    ¬ ∃ resp, (PlaceOrders exKeeper bigFundBatch (exState 5)).2 = Result.ok resp :=
  ⟨by decide, by decide,
    Or.inr ⟨[1], rfl, by decide, by decide, by decide, by decide⟩,
    by decide, by decide,
    fun h => by
      obtain ⟨resp, hr⟩ := h
      have hp : (PlaceOrders exKeeper bigFundBatch (exState 5)).2
          = Result.panic "Int64() out of bound" := by decide
      rw [hp] at hr
      exact absurd hr (by simp)⟩

/-- C16, as amended: the error `PlaceOrders` returns is that of the earliest failing check in
pipeline order. An empty batch gives the empty-batch error; otherwise an invalid order gives
`validateOrder`'s error for the first invalid order, whatever the funds and tick sizes are;
otherwise a failing escrow gives the escrow error, whatever the tick sizes are; otherwise a
missing tick size gives the key-not-found error of the first order that lacks one, the price
tick size being reported before the quantity tick size. Every error returned is one of
these. -/
theorem C16_earliest_failing_check (k : Keeper) (msg : MsgPlaceOrders) (s : State) :
    (msg.Orders = [] → (PlaceOrders k msg s).2 = Result.error Err.emptyBatch) ∧
    (∀ pre o post e, msg.Orders = pre ++ o :: post →
      (∀ x ∈ pre, validateOrder x = none) → validateOrder o = some e →
      (PlaceOrders k msg s).2 = Result.error e) ∧
    (∀ e, msg.Orders ≠ [] → (∀ o ∈ msg.Orders, validateOrder o = none) →
      (transferFunds k msg s).2 = Result.error e →
      (PlaceOrders k msg s).2 = Result.error e) ∧
    (∀ pre o post, msg.Orders = pre ++ o :: post →
      (∀ x ∈ msg.Orders, validateOrder x = none) →
      (transferFunds k msg s).2 = Result.ok () →
      (∀ x ∈ pre, Configured k msg x = true) → Configured k msg o = false →
      (PlaceOrders k msg s).2 = Result.error (tickError k msg o) ∧
      (k.GetPriceTickSizeForPair msg.ContractAddr (lookupPair o) = none →
        tickError k msg o = Err.keyNotFoundPrice o.PriceDenom o.AssetDenom) ∧
      (k.GetPriceTickSizeForPair msg.ContractAddr (lookupPair o) ≠ none →
        tickError k msg o = Err.keyNotFoundQuantity o.PriceDenom o.AssetDenom)) ∧
    (∀ e, (PlaceOrders k msg s).2 = Result.error e →
      msg.Orders = [] ∨ (∃ o ∈ msg.Orders, validateOrder o ≠ none) ∨
      (transferFunds k msg s).2 = Result.error e ∨
      (∃ o ∈ msg.Orders, Configured k msg o = false)) := by
  refine ⟨?_, ?_, ?_, ?_, ?_⟩
  · intro h
    rw [PlaceOrders_empty k msg s h]
  · intro pre o post e hsplit hpre ho
    have hv : validateOrders msg.Orders = some e := by
      rw [hsplit]; exact validateOrders_of_split pre o post e hpre ho
    rw [PlaceOrders_invalid k msg s e hv]
  · intro e hne hvalid ht
    have hv := (validateOrders_eq_none_iff msg.Orders).mpr hvalid
    rw [PlaceOrders_escrow_error k msg s (transferFunds k msg s).1 e hne hv (Prod.ext rfl ht)]
  · intro pre o post hsplit hvalid hesc hpre ho
    refine ⟨?_, ?_, ?_⟩
    · rw [(PlaceOrders_tick_error_of_split k msg s pre o post hvalid hesc hsplit hpre ho).1]
    · intro hp
      simp [tickError, hp]
    · intro hp
      cases hpt : k.GetPriceTickSizeForPair msg.ContractAddr (lookupPair o) with
      | none => exact absurd hpt hp
      | some pt => simp [tickError, hpt]
  · intro e h
    by_cases hne : msg.Orders = []
    · exact Or.inl hne
    by_cases hinv : ∃ o ∈ msg.Orders, validateOrder o ≠ none
    · exact Or.inr (Or.inl hinv)
    have hvalid : ∀ o ∈ msg.Orders, validateOrder o = none := by
      intro o ho
      by_contra hc
      exact hinv ⟨o, ho, hc⟩
    have hv := (validateOrders_eq_none_iff msg.Orders).mpr hvalid
    rcases ht : transferFunds k msg s with ⟨s1, r⟩
    cases r with
    | error e1 =>
      rw [PlaceOrders_escrow_error k msg s s1 e1 hne hv ht] at h
      simp only [Result.error.injEq] at h
      subst h
      exact Or.inr (Or.inr (Or.inl rfl))
    | panic cause =>
      rw [PlaceOrders_escrow_panic k msg s s1 cause hne hv ht] at h
      simp at h
    | ok v =>
      refine Or.inr (Or.inr (Or.inr ?_))
      by_contra hc
      have hall : ∀ o ∈ msg.Orders, Configured k msg o = true := by
        intro o ho
        cases hco : Configured k msg o with
        | true => rfl
        | false => exact absurd ⟨o, ho, hco⟩ hc
      obtain ⟨resp, hr⟩ := PlaceOrders_succeeds k msg s s1 hne hv ht hall
      rw [hr] at h
      simp at h

/-- C16 on a batch whose only order is invalid and on an unconfigured pair, and whose fund is
negative, not send-enabled and addressed to a blocked contract: the validation error wins. -/
theorem C16_earliest_failing_check_witness :
    (PlaceOrders exKeeper allBadBatch (exState 5)).2
      = Result.error (Err.invalidQuantity (NewDec (-1))) ∧
    (transferFunds exKeeper allBadBatch (exState 5)).2
      = Result.error (Err.transferDisabled "ulocked transfers are currently disabled") ∧
    Configured exKeeper allBadBatch (exOrder "USDC" "OSMO" (-1)) = false :=
  ⟨(C16_earliest_failing_check exKeeper allBadBatch (exState 5)).2.1
      [] (exOrder "USDC" "OSMO" (-1)) [] (Err.invalidQuantity (NewDec (-1))) rfl
      (by simp) (by decide),
    by decide, by decide⟩

/-- C16 as stated fails on the empty batch: `PlaceOrders` fails, no order is invalid, escrow
succeeds and no order lacks a tick size, and the error is the empty-batch error, which is none
of the three errors the claim allows. -/
theorem C16_empty_batch_error :
    (PlaceOrders exKeeper emptyBatch (exState 5)).2 = Result.error Err.emptyBatch ∧
    (∀ o ∈ emptyBatch.Orders, validateOrder o = none) ∧
    (transferFunds exKeeper emptyBatch (exState 5)).2 = Result.ok () ∧
    (∀ o ∈ emptyBatch.Orders, Configured exKeeper emptyBatch o = true) := by
  decide

/-- C17, as amended: when every order is valid, escrow succeeds and the first order whose pair
lacks a tick size is at index `i` (after the orders `pre`), with prior counter `K` and `K + i` at
most `2 ^ 64`, `PlaceOrders` returns the key-not-found error of that order; each staging set of
the contract has gained exactly the first `i` orders that map to its key, carrying the ids
`K .. K+i-1`; the deposit ledger has gained the records of all funds of the batch; and the
persisted counter is still `K`, so a following batch for the contract that succeeds is assigned
ids starting at `K`. -/
theorem C17_partial_staging (k : Keeper) (msg : MsgPlaceOrders) (s : State)
    (pre : List Order) (o : Order) (post : List Order)
    (hvalid : ∀ x ∈ msg.Orders, validateOrder x = none)
    (hesc : (transferFunds k msg s).2 = Result.ok ())
    (hsplit : msg.Orders = pre ++ o :: post)
    (hpre : ∀ x ∈ pre, Configured k msg x = true)
    (ho : Configured k msg o = false)
    (hK : s.nextOrderID msg.ContractAddr < uint64Size)
    (hKi : s.nextOrderID msg.ContractAddr + pre.length ≤ uint64Size) :
    (PlaceOrders k msg s).2 = Result.error (tickError k msg o) ∧
    (∀ p, (PlaceOrders k msg s).1.blockOrders msg.ContractAddr p
      = s.blockOrders msg.ContractAddr p
          ++ ((pre.enum.filter (fun io => decide (pairKey k msg io.2 = some p))).map
              (fun io =>
                { io.2 with Id := s.nextOrderID msg.ContractAddr + io.1,
                            Account := msg.Creator, ContractAddr := msg.ContractAddr }))) ∧
    (PlaceOrders k msg s).1.depositInfo msg.ContractAddr
      = s.depositInfo msg.ContractAddr ++ msg.Funds.map (depositEntry msg) ∧
    (PlaceOrders k msg s).1.nextOrderID msg.ContractAddr = s.nextOrderID msg.ContractAddr ∧
    ∀ (msg2 : MsgPlaceOrders) (s3 : State) (resp : MsgPlaceOrdersResponse),
      msg2.ContractAddr = msg.ContractAddr →
      PlaceOrders k msg2 (PlaceOrders k msg s).1 = (s3, Result.ok resp) →
      resp.OrderIds.head? = some (s.nextOrderID msg.ContractAddr) := by
  obtain ⟨hPO, htake⟩ :=
    PlaceOrders_tick_error_of_split k msg s pre o post hvalid hesc hsplit hpre ho
  have ht : transferFunds k msg s = ((transferFunds k msg s).1, Result.ok ()) :=
    Prod.ext rfl hesc
  obtain ⟨hf1, hf2, _⟩ := transferFunds_frame k msg s
  obtain ⟨hs1, hs2, _⟩ := stageLoop_frame k msg msg.Orders (s.nextOrderID msg.ContractAddr) []
    (transferFunds k msg s).1
  have hctr : (PlaceOrders k msg s).1.nextOrderID msg.ContractAddr
      = s.nextOrderID msg.ContractAddr := by
    rw [hPO]; simp only; rw [hs1, hf1]
  refine ⟨by rw [hPO], ?_, ?_, hctr, ?_⟩
  · intro p
    have hst := (stageLoop_state k msg (s.nextOrderID msg.ContractAddr) msg.Orders 0 []
      (transferFunds k msg s).1).2.2.2 p
    simp only [Nat.add_zero, Nat.mod_eq_of_lt hK] at hst
    rw [hPO]
    simp only
    rw [hst, htake, hf2, stagedEntries_no_wrap k msg _ pre p hKi]
    rfl
  · rw [hPO]
    simp only
    rw [hs2]
    exact depositLoop_ok msg msg.Funds s _ (transferFunds_ok k msg s _ ht)
  · intro msg2 s3 resp hc h2
    have hK2 : (PlaceOrders k msg s).1.nextOrderID msg2.ContractAddr < uint64Size := by
      rw [hc, hctr]; exact hK
    have hids := (PlaceOrders_ok_spec k msg2 _ s3 resp h2 hK2).1
    have hne2 := (PlaceOrders_ok_inv k msg2 _ s3 resp h2).1
    rw [hids, hc, hctr]
    cases hO : msg2.Orders with
    | nil => exact absurd hO hne2
    | cons x rest =>
      simp [List.range', Nat.mod_eq_of_lt hK]

/-- C17 on two configured orders followed by an unconfigured one, with one fund, at counter 5:
the first two orders are staged with ids 5 and 6, the deposit is recorded, the counter is still
5 and the next batch starts at 5 again. -/
theorem C17_partial_staging_witness :
    (PlaceOrders exKeeper thirdUnconfiguredBatch (exState 5)).2
      = Result.error (Err.keyNotFoundPrice "USDC" "OSMO") ∧
    (PlaceOrders exKeeper thirdUnconfiguredBatch (exState 5)).1.blockOrders "sei1dex"
        "USDC|ATOM"
      = [{ exOrder "USDC" "ATOM" 1 with
            Id := 5, Account := "sei1alice", ContractAddr := "sei1dex" },
         { exOrder "USDC" "ATOM" 3 with
            Id := 6, Account := "sei1alice", ContractAddr := "sei1dex" }] ∧
    (PlaceOrders exKeeper thirdUnconfiguredBatch (exState 5)).1.depositInfo "sei1dex"
      = [{ Creator := "sei1alice", Denom := "uusdc", Amount := NewDec 5 }] ∧
    (PlaceOrders exKeeper thirdUnconfiguredBatch (exState 5)).1.nextOrderID "sei1dex" = 5 ∧
    (PlaceOrders exKeeper atomBatch
      (PlaceOrders exKeeper thirdUnconfiguredBatch (exState 5)).1).2
      = Result.ok ⟨[5, 6]⟩ :=
  have h := C17_partial_staging exKeeper thirdUnconfiguredBatch (exState 5)
    [exOrder "USDC" "ATOM" 1, exOrder "USDC" "ATOM" 3] (exOrder "USDC" "OSMO" 1) []
    (by decide) (by decide) rfl (by decide) (by decide) (by decide) (by decide)
  ⟨h.1.trans (by decide), (h.2.1 "USDC|ATOM").trans (by decide), h.2.2.1.trans (by decide),
    h.2.2.2.1, by decide⟩

/-- C17 as stated fails at the counter `2 ^ 64 - 1`: validation and escrow succeed, the first
order without a tick size is at index 2, and the second staged order carries the id 0, not
`K + 1`. -/
theorem C17_partial_ids_wrap :
    (∀ o ∈ thirdUnconfiguredBatch.Orders, validateOrder o = none) ∧
    (transferFunds exKeeper thirdUnconfiguredBatch (exState (2 ^ 64 - 1))).2 = Result.ok () ∧
    (PlaceOrders exKeeper thirdUnconfiguredBatch (exState (2 ^ 64 - 1))).2
      = Result.error (Err.keyNotFoundPrice "USDC" "OSMO") ∧
    ((PlaceOrders exKeeper thirdUnconfiguredBatch (exState (2 ^ 64 - 1))).1.blockOrders
        "sei1dex" "USDC|ATOM").map (fun staged => staged.Id)
      = [2 ^ 64 - 1, 0] ∧
    (0 : Nat) ≠ (2 ^ 64 - 1) + 1 := by
  decide

/-- C18: the code departs from the claim on a fund of amount `2 ^ 63`. The amount is present and
non-negative and every escrow check passes, yet `transferFunds` does not complete: it panics in
`Amount.Int64()` and no deposit entry is recorded. -/
theorem C18_int64_panic :
    (∀ f ∈ bigFundBatch.Funds, f.Amount.i = some (2 ^ 63)) ∧
    EscrowChecksPass exKeeper bigFundBatch ∧
    (transferFunds exKeeper bigFundBatch (exState 5)).2 = Result.panic "Int64() out of bound" ∧
    (transferFunds exKeeper bigFundBatch (exState 5)).1.depositInfo "sei1dex" = [] :=
  ⟨by decide, Or.inr ⟨[1], rfl, by decide, by decide, by decide, by decide⟩, by decide,
    by decide⟩

/-- C19: a `PlaceOrders` call for a contract, whatever its outcome, leaves the counter, the
deposit ledger and every staging set of any other contract unchanged, and leaves unchanged the
staging sets of the contract under every key that is not the pair key of a submitted order; the
counter, the deposit ledger and these staging sets are all there is in the state. -/
theorem C19_frame (k : Keeper) (msg : MsgPlaceOrders) (s : State) (c : String)
    (hc : c ≠ msg.ContractAddr) :
    (PlaceOrders k msg s).1.nextOrderID c = s.nextOrderID c ∧
    (PlaceOrders k msg s).1.depositInfo c = s.depositInfo c ∧
    (∀ p, (PlaceOrders k msg s).1.blockOrders c p = s.blockOrders c p) ∧
    ∀ p, (∀ o ∈ msg.Orders, pairKey k msg o ≠ some p) →
      (PlaceOrders k msg s).1.blockOrders msg.ContractAddr p
        = s.blockOrders msg.ContractAddr p := by
  obtain ⟨h1, h2⟩ := PlaceOrders_frame k msg s
  obtain ⟨ha, hb, hd⟩ := h1 c hc
  exact ⟨ha, hb, hd, h2⟩

/-- C19 on the successful two-order batch: the contract `sei1other` and the staging set of
`sei1dex` under the key of (USDC, OSMO) are untouched. -/
theorem C19_frame_witness :
    (PlaceOrders exKeeper atomBatch (exState 5)).2 = Result.ok ⟨[5, 6]⟩ ∧
    (PlaceOrders exKeeper atomBatch (exState 5)).1.nextOrderID "sei1other"
      = (exState 5).nextOrderID "sei1other" ∧
    (PlaceOrders exKeeper atomBatch (exState 5)).1.depositInfo "sei1other"
      = (exState 5).depositInfo "sei1other" ∧
    (∀ p, (PlaceOrders exKeeper atomBatch (exState 5)).1.blockOrders "sei1other" p
      = (exState 5).blockOrders "sei1other" p) ∧
    (PlaceOrders exKeeper atomBatch (exState 5)).1.blockOrders atomBatch.ContractAddr
        "USDC|OSMO"
      = (exState 5).blockOrders atomBatch.ContractAddr "USDC|OSMO" :=
  have h := C19_frame exKeeper atomBatch (exState 5) "sei1other" (by decide)
  ⟨by decide, h.1, h.2.1, h.2.2.1, h.2.2.2 "USDC|OSMO" (by decide)⟩

end SeiDex
